import Mathlib

/-!
# Verification of the rounding engine of the figma-round-all-tw plugin

Shallow embedding of `src/code.ts`. JavaScript numbers are modelled as
rationals (`ℚ`): every arithmetic operation of the source is exact here,
`Math.floor`/`Math.ceil` are the integer floor/ceiling, `Math.round x` is
`⌊x + 1/2⌋` (JS rounds halves toward positive infinity), and
`Number(x.toFixed(k))` is rounding to `k` decimal digits with the same tie
rule. Division is total (`x / 0 = 0` in `ℚ`), mirroring that JS division
never raises.
-/

namespace RoundAllTw

/-! ## Part 1 — The embedding: definitions translated from src/code.ts -/

/-- JS `Math.round`: round half toward positive infinity. -/
def jround (x : ℚ) : ℤ := ⌊x + 1/2⌋

/-- Rounding to `k` decimal digits: models both `Math.round(x * 10^k) / 10^k`
and `Number(x.toFixed(k))` (both round ties toward positive infinity). -/
def roundTo (k : ℕ) (x : ℚ) : ℚ := ((jround (x * 10 ^ k) : ℚ)) / 10 ^ k

/-- `type RoundingStrategy = "round" | "floor" | "ceil"` (code.ts line 4). -/
inductive RoundingStrategy where
  | round
  | floor
  | ceil
  deriving DecidableEq, Repr

/-- The integer chosen for `scaled` by the `switch (strategy)` block of
`applyRoundingStrategy` (code.ts lines 309-323): `floor`/`ceil` apply
`Math.floor`/`Math.ceil` directly, `round` first pre-rounds `scaled` to six
decimal digits and then applies `Math.round`. -/
def stratInt (strategy : RoundingStrategy) (scaled : ℚ) : ℤ :=
  match strategy with
  | .floor => ⌊scaled⌋
  | .ceil => ⌈scaled⌉
  | .round => jround (roundTo 6 scaled)

/-- `applyRoundingStrategy` (code.ts lines 297-328). -/
def applyRoundingStrategy (value factor : ℚ) (strategy : RoundingStrategy) : ℚ :=
  if factor ≤ 0 then value
  else if value = 0 then 0
  else if |value| < 1/1000 then value
  else
    let scaled := value / factor
    let result : ℚ :=
      match strategy with
      | .floor => (⌊scaled⌋ : ℚ) * factor
      | .ceil => (⌈scaled⌉ : ℚ) * factor
      | .round => ((jround (roundTo 6 scaled) : ℚ)) * factor
    roundTo 10 result

/-- `preserveProportions` (code.ts lines 331-358).  `aspect` is the source's
`aspectRatio`, `newR` its `newRatio`. -/
def preserveProportions (width height factor : ℚ) (strategy : RoundingStrategy) : ℚ × ℚ :=
  let aspect := width / height
  let newWidth := applyRoundingStrategy width factor strategy
  let newHeight := applyRoundingStrategy height factor strategy
  let newR := newWidth / newHeight
  let ratioChange := |newR - aspect| / aspect
  if ratioChange > 1/100 then
    let heightFromWidth := newWidth / aspect
    let heightRounded := applyRoundingStrategy heightFromWidth factor strategy
    let widthFromHeight := newHeight * aspect
    let widthRounded := applyRoundingStrategy widthFromHeight factor strategy
    let ratio1 := |newWidth / heightRounded - aspect|
    let ratio2 := |widthRounded / newHeight - aspect|
    if ratio1 < ratio2 then (newWidth, heightRounded) else (widthRounded, newHeight)
  else (newWidth, newHeight)

/-- The amended claim C2, written from the spec's words plus the final
cleanup step the claim omitted: identity for non-positive factors, zero for
zero, identity for sub-`1e-3` magnitudes, otherwise the strategy's integer
rounding of `scaled = value / factor` (with the six-digit pre-round under
`round`) multiplied back by the factor — and the result then cleaned to ten
decimal digits (`Number(result.toFixed(10))`). -/
def applyRoundingSpec (value factor : ℚ) (strategy : RoundingStrategy) : ℚ :=
  if factor ≤ 0 then value
  else if value = 0 then 0
  else if |value| < 1/1000 then value
  else roundTo 10 ((stratInt strategy (value / factor) : ℚ) * factor)

/-- The claim's characterization of `preserveProportions`, written from the
spec's words: independent rounding; if the aspect drift exceeds 1% relative,
pick whichever corrective alternative yields a pair whose aspect is closer to
the original, with exact ties favoring alternative (a) (`ratio1 ≤ ratio2`
picks the rounded-width alternative). -/
def preserveProportionsClaim (width height factor : ℚ) (strategy : RoundingStrategy) : ℚ × ℚ :=
  let aspect := width / height
  let newWidth := applyRoundingStrategy width factor strategy
  let newHeight := applyRoundingStrategy height factor strategy
  let newR := newWidth / newHeight
  let ratioChange := |newR - aspect| / aspect
  if ratioChange > 1/100 then
    let heightRounded := applyRoundingStrategy (newWidth / aspect) factor strategy
    let widthRounded := applyRoundingStrategy (newHeight * aspect) factor strategy
    let ratio1 := |newWidth / heightRounded - aspect|
    let ratio2 := |widthRounded / newHeight - aspect|
    if ratio1 ≤ ratio2 then (newWidth, heightRounded) else (widthRounded, newHeight)
  else (newWidth, newHeight)

/-- The amended characterization: identical except that an exact tie between
the two corrective alternatives returns alternative (b) (the rounded-height
alternative), because the source's `ratio1 < ratio2 ? a : b` sends ties to
the else branch. -/
def preserveProportionsAmended (width height factor : ℚ) (strategy : RoundingStrategy) : ℚ × ℚ :=
  let aspect := width / height
  let newWidth := applyRoundingStrategy width factor strategy
  let newHeight := applyRoundingStrategy height factor strategy
  let newR := newWidth / newHeight
  let ratioChange := |newR - aspect| / aspect
  if ratioChange > 1/100 then
    let heightRounded := applyRoundingStrategy (newWidth / aspect) factor strategy
    let widthRounded := applyRoundingStrategy (newHeight * aspect) factor strategy
    let ratio1 := |newWidth / heightRounded - aspect|
    let ratio2 := |widthRounded / newHeight - aspect|
    if ratio2 ≤ ratio1 then (widthRounded, newHeight) else (newWidth, heightRounded)
  else (newWidth, newHeight)

inductive NodeType where
  | FRAME
  | GROUP
  | COMPONENT
  | INSTANCE
  | TEXT
  | RECTANGLE
  | ELLIPSE
  | POLYGON
  | STAR
  | VECTOR
  | LINE
  deriving DecidableEq, Repr

inductive LayoutMode where
  | NONE
  | HORIZONTAL
  | VERTICAL
  deriving DecidableEq, Repr

inductive SizingMode where
  | FIXED
  | AUTO
  deriving DecidableEq, Repr

/-- Unit tag of a Figma `lineHeight` / `letterSpacing` value. -/
inductive SizeUnit where
  | PIXELS
  | PERCENT
  | AUTO
  deriving DecidableEq, Repr

inductive TextAutoResize where
  | NONE
  | HEIGHT
  | WIDTH_AND_HEIGHT
  | TRUNCATE
  deriving DecidableEq, Repr

/-- A `lineHeight`/`letterSpacing` value with its unit. -/
structure UnitValue where
  unit : SizeUnit
  value : ℚ
  deriving DecidableEq, Repr

/-- The numeric fields of a Figma effect that `roundDeepValues` visits;
`radius` is present iff `"radius" in effect` holds. -/
structure Effect where
  radius : Option ℚ
  offsetX : Option ℚ
  offsetY : Option ℚ
  spread : Option ℚ
  deriving DecidableEq, Repr

structure VectorVertex where
  x : ℚ
  y : ℚ
  deriving DecidableEq, Repr

/-- A vector-network segment; the source's `end` field is called `stop`
here (`end` is a Lean keyword).  The indices are rationals because
`roundDeepValues` treats them as plain numbers and rounds them too. -/
structure VectorSegment where
  start : ℚ
  stop : ℚ
  deriving DecidableEq, Repr

structure VectorNetwork where
  vertices : List VectorVertex
  segments : List VectorSegment
  deriving DecidableEq, Repr

structure NodeData where
  id : ℕ
  name : String
  type : NodeType
  x : Option ℚ
  y : Option ℚ
  width : Option ℚ
  height : Option ℚ
  hasResize : Bool
  rotation : Option ℚ
  layoutMode : Option LayoutMode
  primaryAxisSizingMode : SizingMode
  counterAxisSizingMode : SizingMode
  paddingLeft : Option ℚ
  paddingRight : Option ℚ
  paddingTop : Option ℚ
  paddingBottom : Option ℚ
  itemSpacing : Option ℚ
  fontSize : Option ℚ
  lineHeight : Option UnitValue
  letterSpacing : Option UnitValue
  autoRename : Bool
  textAutoResize : TextAutoResize
  effects : Option (List Effect)
  cornerRadius : Option ℚ
  topLeftRadius : Option ℚ
  topRightRadius : Option ℚ
  bottomLeftRadius : Option ℚ
  bottomRightRadius : Option ℚ
  hasSetCornerRadius : Bool
  hasSetCornerRadii : Bool
  vectorNetwork : Option VectorNetwork
  hasChildren : Bool
  mutationThrows : Bool
  deriving DecidableEq, Repr

/-- A scene node: its own data plus its children (`node.children`; the
walks consult it only when `hasChildren` is set, mirroring the
`"children" in node` probe). -/
inductive SceneNode where
  | node (data : NodeData) (children : List SceneNode)

mutual

/-- `figma.currentPage.findAll()` restricted to one root: the root followed
by its descendants in document (pre-order) order. -/
def flattenOne : SceneNode → List SceneNode
  | .node d kids => .node d kids :: flattenList kids

/-- `figma.currentPage.findAll()`: every node of the page in document
(pre-order) order. -/
def flattenList : List SceneNode → List SceneNode
  | [] => []
  | n :: ns => flattenOne n ++ flattenList ns

end

structure FactorByProperty where
  dimensions : ℚ
  fontSize : ℚ
  effects : ℚ
  vectors : ℚ
  lineHeight : ℚ
  cornerRadius : ℚ
  deriving DecidableEq, Repr

structure RoundingOptions where
  detachInstances : Bool
  roundEffects : Bool
  roundVectors : Bool
  preserveProportions : Bool
  roundingStrategy : RoundingStrategy
  ignoreTypes : Option (List NodeType)
  roundingFactorByProperty : FactorByProperty
  deriving DecidableEq, Repr

/-- `DEFAULT_OPTIONS` (code.ts lines 36-51). -/
def DEFAULT_OPTIONS : RoundingOptions :=
  { detachInstances := false
    roundEffects := true
    roundVectors := true
    preserveProportions := true
    roundingStrategy := RoundingStrategy.round
    ignoreTypes := some [NodeType.GROUP]
    roundingFactorByProperty := ⟨1, 1, 1, 1, 1, 1⟩ }

/-- `options.ignoreTypes && options.ignoreTypes.indexOf(node.type) !== -1`
(the `undefined` guard plus membership). -/
def typeIgnored (o : RoundingOptions) (t : NodeType) : Bool :=
  match o.ignoreTypes with
  | some ts => ts.contains t
  | none => false

/-- JS `a || b` on numbers: `0` is falsy, so a zero left operand falls back
to the right operand. -/
def orElseNum (a b : ℚ) : ℚ := if a = 0 then b else a

def roundDeepEffect (e : Effect) (f : ℚ) (s : RoundingStrategy) : Effect :=
  { radius := e.radius.map (fun v => applyRoundingStrategy v f s)
    offsetX := e.offsetX.map (fun v => applyRoundingStrategy v f s)
    offsetY := e.offsetY.map (fun v => applyRoundingStrategy v f s)
    spread := e.spread.map (fun v => applyRoundingStrategy v f s) }

def roundDeepVertex (p : VectorVertex) (f : ℚ) (s : RoundingStrategy) : VectorVertex :=
  { x := applyRoundingStrategy p.x f s, y := applyRoundingStrategy p.y f s }

def roundDeepSegment (sg : VectorSegment) (f : ℚ) (s : RoundingStrategy) : VectorSegment :=
  { start := applyRoundingStrategy sg.start f s, stop := applyRoundingStrategy sg.stop f s }

def roundDeepNetwork (vn : VectorNetwork) (f : ℚ) (s : RoundingStrategy) : VectorNetwork :=
  { vertices := vn.vertices.map (fun p => roundDeepVertex p f s)
    segments := vn.segments.map (fun sg => roundDeepSegment sg f s) }

structure PropChange where
  property : String
  fromValue : ℚ
  toValue : ℚ
  deriving DecidableEq, Repr

structure NodeChanges where
  name : String
  type : NodeType
  changes : List PropChange
  deriving DecidableEq, Repr

/-- The preview report: `nodeCount`, `propertyChanges` (a mapping from node
id to its entry, in insertion order), `instancesSkipped`. -/
structure PreviewChanges where
  nodeCount : ℕ
  propertyChanges : List (ℕ × NodeChanges)
  instancesSkipped : ℕ
  deriving DecidableEq, Repr

/-- Preview state: the report under construction plus a log of host
mutations.  The log exists so the read-only claim is statable: the apply
walk records every mutated node here, while the preview translation —
which contains no setter call — never touches it. -/
structure PrevSt where
  changes : PreviewChanges
  hostWrites : List (ℕ × NodeData)
  deriving DecidableEq, Repr

/-- `if (!changes.propertyChanges[node.id]) { ... = { name, type, changes: [] } }` -/
def ensureEntry (pcs : List (ℕ × NodeChanges)) (i : ℕ) (nm : String) (t : NodeType) :
    List (ℕ × NodeChanges) :=
  if (pcs.lookup i).isSome then pcs else pcs ++ [(i, ⟨nm, t, []⟩)]

/-- `changes.propertyChanges[node.id].changes.push(c)` -/
def pushChange (pcs : List (ℕ × NodeChanges)) (i : ℕ) (c : PropChange) :
    List (ℕ × NodeChanges) :=
  pcs.map (fun p => if p.1 = i then (p.1, ⟨p.2.name, p.2.type, p.2.changes ++ [c]⟩) else p)

def pushPreview (st : PrevSt) (i : ℕ) (c : PropChange) : PrevSt :=
  { st with changes := { st.changes with propertyChanges := pushChange st.changes.propertyChanges i c } }

/-- Preview of `x`/`y` (code.ts lines 430-449). -/
def previewXY (rf : ℚ) (o : RoundingOptions) (d : NodeData) (st : PrevSt) : PrevSt :=
  let st1 :=
    match d.x with
    | none => st
    | some xv =>
      let newX := applyRoundingStrategy xv rf o.roundingStrategy
      if newX ≠ xv then pushPreview st d.id ⟨"x", xv, newX⟩ else st
  match d.y with
  | none => st1
  | some yv =>
    let newY := applyRoundingStrategy yv rf o.roundingStrategy
    if newY ≠ yv then pushPreview st1 d.id ⟨"y", yv, newY⟩ else st1

/-- Preview of width/height (code.ts lines 452-487). -/
def previewSize (o : RoundingOptions) (d : NodeData) (st : PrevSt) : PrevSt :=
  match d.width, d.height with
  | some w, some h =>
    let dims := o.roundingFactorByProperty.dimensions
    let pair :=
      if o.preserveProportions then preserveProportions w h dims o.roundingStrategy
      else (applyRoundingStrategy w dims o.roundingStrategy,
            applyRoundingStrategy h dims o.roundingStrategy)
    let st1 := if pair.1 ≠ w then pushPreview st d.id ⟨"width", w, pair.1⟩ else st
    if pair.2 ≠ h then pushPreview st1 d.id ⟨"height", h, pair.2⟩ else st1
  | _, _ => st

/-- Preview of text properties (code.ts lines 490-547). -/
def previewText (o : RoundingOptions) (d : NodeData) (st : PrevSt) : PrevSt :=
  if d.type ≠ NodeType.TEXT then st
  else
    let st1 :=
      match d.fontSize with
      | none => st
      | some fs =>
        let newSize := applyRoundingStrategy fs o.roundingFactorByProperty.fontSize o.roundingStrategy
        if newSize ≠ fs then pushPreview st d.id ⟨"fontSize", fs, newSize⟩ else st
    let st2 :=
      match d.lineHeight with
      | none => st1
      | some uv =>
        match uv.unit with
        | SizeUnit.PIXELS =>
          let nv := applyRoundingStrategy uv.value (orElseNum o.roundingFactorByProperty.lineHeight 1) o.roundingStrategy
          if nv ≠ uv.value then pushPreview st1 d.id ⟨"lineHeight", uv.value, nv⟩ else st1
        | SizeUnit.PERCENT =>
          let nv := applyRoundingStrategy uv.value (orElseNum o.roundingFactorByProperty.lineHeight 1) o.roundingStrategy
          if nv ≠ uv.value then pushPreview st1 d.id ⟨"lineHeight (%)", uv.value, nv⟩ else st1
        | SizeUnit.AUTO => st1
    match d.letterSpacing with
    | none => st2
    | some uv =>
      match uv.unit with
      | SizeUnit.PIXELS =>
        let nv := applyRoundingStrategy uv.value (orElseNum o.roundingFactorByProperty.fontSize 1) o.roundingStrategy
        if nv ≠ uv.value then pushPreview st2 d.id ⟨"letterSpacing", uv.value, nv⟩ else st2
      | SizeUnit.PERCENT =>
        let nv := applyRoundingStrategy uv.value (orElseNum o.roundingFactorByProperty.fontSize 1) o.roundingStrategy
        if nv ≠ uv.value then pushPreview st2 d.id ⟨"letterSpacing (%)", uv.value, nv⟩ else st2
      | SizeUnit.AUTO => st2

/-- Preview of per-effect radii (code.ts lines 550-563). -/
def previewEffects (o : RoundingOptions) (d : NodeData) (st : PrevSt) : PrevSt :=
  if o.roundEffects then
    match d.effects with
    | none => st
    | some effs =>
      (effs.enum).foldl
        (fun acc p =>
          match p.2.radius with
          | none => acc
          | some r =>
            let newRadius := applyRoundingStrategy r o.roundingFactorByProperty.effects o.roundingStrategy
            if newRadius ≠ r then
              pushPreview acc d.id ⟨"effect[" ++ toString p.1 ++ "].radius", r, newRadius⟩
            else acc)
        st
  else st

/-- Preview of the uniform corner radius (code.ts lines 566-575). -/
def previewCorner (rf : ℚ) (o : RoundingOptions) (d : NodeData) (st : PrevSt) : PrevSt :=
  match d.cornerRadius with
  | none => st
  | some r =>
    let newRadius := applyRoundingStrategy r (orElseNum o.roundingFactorByProperty.cornerRadius rf) o.roundingStrategy
    if newRadius ≠ r then pushPreview st d.id ⟨"cornerRadius", r, newRadius⟩ else st

/-- Preview of the four individual corner radii (code.ts lines 578-620);
the source's order is topLeft, topRight, bottomLeft, bottomRight. -/
def previewCornerIndividual (rf : ℚ) (o : RoundingOptions) (d : NodeData) (st : PrevSt) : PrevSt :=
  let crf := orElseNum o.roundingFactorByProperty.cornerRadius rf
  let stepOne := fun (st' : PrevSt) (v : Option ℚ) (nm : String) =>
    match v with
    | none => st'
    | some r =>
      let newRadius := applyRoundingStrategy r crf o.roundingStrategy
      if newRadius ≠ r then pushPreview st' d.id ⟨nm, r, newRadius⟩ else st'
  let st1 := stepOne st d.topLeftRadius "topLeftRadius"
  let st2 := stepOne st1 d.topRightRadius "topRightRadius"
  let st3 := stepOne st2 d.bottomLeftRadius "bottomLeftRadius"
  stepOne st3 d.bottomRightRadius "bottomRightRadius"

/-- The per-node body of `previewNode` after the skip guards: all property
previews in source order. -/
def previewVisit (rf : ℚ) (o : RoundingOptions) (d : NodeData) (st : PrevSt) : PrevSt :=
  previewCornerIndividual rf o d
    (previewCorner rf o d
      (previewEffects o d
        (previewText o d
          (previewSize o d
            (previewXY rf o d st)))))

mutual

/-- `previewNode` (code.ts lines 406-628): count the node, skip ignored
types, count-and-skip non-detached instances, create the node's entry,
preview all properties, then recurse into children. -/
def previewNode (rf : ℚ) (o : RoundingOptions) : SceneNode → PrevSt → PrevSt
  | .node d kids, st =>
    let st1 := { st with changes := { st.changes with nodeCount := st.changes.nodeCount + 1 } }
    if typeIgnored o d.type then st1
    else if d.type = NodeType.INSTANCE ∧ o.detachInstances = false then
      { st1 with changes := { st1.changes with instancesSkipped := st1.changes.instancesSkipped + 1 } }
    else
      let st2 := { st1 with changes :=
        { st1.changes with propertyChanges := ensureEntry st1.changes.propertyChanges d.id d.name d.type } }
      let st3 := previewVisit rf o d st2
      if d.hasChildren then previewNodes rf o kids st3 else st3

def previewNodes (rf : ℚ) (o : RoundingOptions) : List SceneNode → PrevSt → PrevSt
  | [], st => st
  | n :: ns, st => previewNodes rf o ns (previewNode rf o n st)

end

/-- Pruning of empty entries (code.ts lines 644-648). -/
def pruneChanges (pc : PreviewChanges) : PreviewChanges :=
  { pc with propertyChanges := pc.propertyChanges.filter (fun p => !p.2.changes.isEmpty) }

/-- `previewRoundingChanges` (code.ts lines 385-670): in selection mode the
selected nodes are previewed; otherwise `findAll()` is iterated — note that
the flat list already contains every descendant, so `previewNode` is invoked
directly on nodes that recursion also reaches. -/
def previewRoundingChanges (rf : ℚ) (o : RoundingOptions) (page : List SceneNode)
    (selection : List SceneNode) (selectionOnly : Bool) : PrevSt :=
  let st0 : PrevSt := ⟨⟨0, [], 0⟩, []⟩
  let st :=
    if selectionOnly then previewNodes rf o selection st0
    else previewNodes rf o (flattenList page) st0
  { st with changes := pruneChanges st.changes }

structure RoundingStats where
  nodesProcessed : ℕ
  propertiesRounded : ℕ
  instancesSkipped : ℕ
  errorCount : ℕ
  modifiedProperties : List String
  deriving DecidableEq, Repr

/-- `stats.modifiedProperties.add p` (a `Set<string>`). -/
def addProp (l : List String) (p : String) : List String :=
  if l.contains p then l else l ++ [p]

abbrev PSt := NodeData × RoundingStats

/-- `stats.propertiesRounded += k; stats.modifiedProperties.add(nm)` -/
def statBump (s : RoundingStats) (k : ℕ) (nm : String) : RoundingStats :=
  { s with propertiesRounded := s.propertiesRounded + k
           modifiedProperties := addProp s.modifiedProperties nm }

/-- A host mutation call: raises (`Except.error` with the pre-call state)
when the node's `mutationThrows` flag is set, otherwise performs the
update. -/
def hostTry (st : PSt) (upd : PSt → PSt) : Except PSt PSt :=
  if st.1.mutationThrows then Except.error st else Except.ok (upd st)

/-- Round one optional numeric field and write it back through a host call
when the rounded value differs (the `if (newV !== node.v) { node.v = newV;
stats... }` pattern). -/
def tryRoundField (st : PSt) (read : NodeData → Option ℚ) (factor : ℚ)
    (strat : RoundingStrategy) (write : NodeData → ℚ → NodeData) (nm : String) :
    Except PSt PSt :=
  match read st.1 with
  | none => Except.ok st
  | some v =>
    let nv := applyRoundingStrategy v factor strat
    if nv ≠ v then hostTry st (fun p => (write p.1 nv, statBump p.2 1 nm))
    else Except.ok st

/-- `hasAutoLayout = "layoutMode" in node && node.layoutMode !== "NONE"`
(code.ts line 687). -/
def hasAutoLayout (d : NodeData) : Bool :=
  match d.layoutMode with
  | some LayoutMode.NONE => false
  | some _ => true
  | none => false

/-- `x`/`y` rounding with the legacy factor (code.ts lines 690-705). -/
def stepX (rf : ℚ) (o : RoundingOptions) (st : PSt) : Except PSt PSt :=
  tryRoundField st (fun d => d.x) rf o.roundingStrategy
    (fun d v => { d with x := some v }) "x"

def stepY (rf : ℚ) (o : RoundingOptions) (st : PSt) : Except PSt PSt :=
  tryRoundField st (fun d => d.y) rf o.roundingStrategy
    (fun d v => { d with y := some v }) "y"

/-- Width/height handling (code.ts lines 708-785), guarded by
`"resize" in node && "width" in node && "height" in node`.  `node.resize`
is a host call; `resize(a, node.height)` only changes the width field. -/
def stepSize (o : RoundingOptions) (st : PSt) : Except PSt PSt :=
  let dims := o.roundingFactorByProperty.dimensions
  let strat := o.roundingStrategy
  match st.1.width, st.1.height with
  | some w, some h =>
    if st.1.hasResize then
      if st.1.type = NodeType.TEXT then do
        -- only modify width if not in auto-width mode
        let st1 ←
          (if st.1.autoRename = false ∧ st.1.textAutoResize ≠ TextAutoResize.WIDTH_AND_HEIGHT ∧
              st.1.textAutoResize ≠ TextAutoResize.HEIGHT then
            tryRoundField st (fun d => d.width) dims strat
              (fun d v => { d with width := some v }) "width"
          else Except.ok st)
        -- only modify height if in fixed height mode
        if st1.1.textAutoResize = TextAutoResize.NONE then
          tryRoundField st1 (fun d => d.height) dims strat
            (fun d v => { d with height := some v }) "height"
        else Except.ok st1
      else if hasAutoLayout st.1 then do
        -- auto layout: only fixed dimensions, per axis (code.ts lines 732-765)
        let st1 ←
          (if st.1.primaryAxisSizingMode = SizingMode.FIXED ∧ st.1.layoutMode = some LayoutMode.HORIZONTAL then
            tryRoundField st (fun d => d.width) dims strat
              (fun d v => { d with width := some v }) "width"
          else Except.ok st)
        let st2 ←
          (if st1.1.counterAxisSizingMode = SizingMode.FIXED ∧ st1.1.layoutMode = some LayoutMode.HORIZONTAL then
            tryRoundField st1 (fun d => d.height) dims strat
              (fun d v => { d with height := some v }) "height"
          else Except.ok st1)
        let st3 ←
          (if st2.1.primaryAxisSizingMode = SizingMode.FIXED ∧ st2.1.layoutMode = some LayoutMode.VERTICAL then
            tryRoundField st2 (fun d => d.height) dims strat
              (fun d v => { d with height := some v }) "height"
          else Except.ok st2)
        if st3.1.counterAxisSizingMode = SizingMode.FIXED ∧ st3.1.layoutMode = some LayoutMode.VERTICAL then
          tryRoundField st3 (fun d => d.width) dims strat
            (fun d v => { d with width := some v }) "width"
        else Except.ok st3
      else
        -- non-auto-layout (code.ts lines 766-784)
        let pair :=
          if o.preserveProportions then preserveProportions w h dims strat
          else (applyRoundingStrategy w dims strat, applyRoundingStrategy h dims strat)
        if pair.1 ≠ w ∨ pair.2 ≠ h then
          hostTry st (fun p =>
            ({ p.1 with width := some pair.1, height := some pair.2 },
             statBump p.2 2 "dimensions"))
        else Except.ok st
    else Except.ok st
  | _, _ => Except.ok st

/-- Auto-layout padding and item spacing (code.ts lines 788-843). -/
def stepSpacing (o : RoundingOptions) (st : PSt) : Except PSt PSt :=
  let dims := o.roundingFactorByProperty.dimensions
  let strat := o.roundingStrategy
  if hasAutoLayout st.1 then do
    let st1 ←
      (match st.1.paddingLeft with
      | some pl =>
        if st.1.paddingRight = some pl ∧ st.1.paddingTop = some pl ∧ st.1.paddingBottom = some pl then
          -- uniform padding: one rounded value written to all four sides
          let newPadding := applyRoundingStrategy pl dims strat
          if newPadding ≠ pl then
            hostTry st (fun p =>
              ({ p.1 with paddingLeft := some newPadding, paddingRight := some newPadding,
                          paddingTop := some newPadding, paddingBottom := some newPadding },
               statBump p.2 1 "padding"))
          else Except.ok st
        else do
          let a ← tryRoundField st (fun d => d.paddingLeft) dims strat
            (fun d v => { d with paddingLeft := some v }) "paddingLeft"
          let b ← tryRoundField a (fun d => d.paddingRight) dims strat
            (fun d v => { d with paddingRight := some v }) "paddingRight"
          let c ← tryRoundField b (fun d => d.paddingTop) dims strat
            (fun d v => { d with paddingTop := some v }) "paddingTop"
          tryRoundField c (fun d => d.paddingBottom) dims strat
            (fun d v => { d with paddingBottom := some v }) "paddingBottom"
      | none => do
        let b ← tryRoundField st (fun d => d.paddingRight) dims strat
          (fun d v => { d with paddingRight := some v }) "paddingRight"
        let c ← tryRoundField b (fun d => d.paddingTop) dims strat
          (fun d v => { d with paddingTop := some v }) "paddingTop"
        tryRoundField c (fun d => d.paddingBottom) dims strat
          (fun d v => { d with paddingBottom := some v }) "paddingBottom")
    tryRoundField st1 (fun d => d.itemSpacing) dims strat
      (fun d v => { d with itemSpacing := some v }) "itemSpacing"
  else Except.ok st

/-- Rotation (code.ts lines 846-856), rounded with the legacy factor. -/
def stepRotation (rf : ℚ) (o : RoundingOptions) (st : PSt) : Except PSt PSt :=
  tryRoundField st (fun d => d.rotation) rf o.roundingStrategy
    (fun d v => { d with rotation := some v }) "rotation"

/-- Text properties (code.ts lines 859-909).  `figma.loadFontAsync` is a
host read, modelled as a no-op. -/
def stepText (o : RoundingOptions) (st : PSt) : Except PSt PSt :=
  if st.1.type = NodeType.TEXT then do
    let st1 ← tryRoundField st (fun d => d.fontSize) o.roundingFactorByProperty.fontSize
      o.roundingStrategy (fun d v => { d with fontSize := some v }) "fontSize"
    let st2 ←
      (match st1.1.lineHeight with
      | some uv =>
        match uv.unit with
        | SizeUnit.PIXELS =>
          let nv := applyRoundingStrategy uv.value (orElseNum o.roundingFactorByProperty.lineHeight 1) o.roundingStrategy
          if nv ≠ uv.value then
            hostTry st1 (fun p =>
              ({ p.1 with lineHeight := some ⟨SizeUnit.PIXELS, nv⟩ }, statBump p.2 1 "lineHeight"))
          else Except.ok st1
        | SizeUnit.PERCENT =>
          let nv := applyRoundingStrategy uv.value (orElseNum o.roundingFactorByProperty.lineHeight 1) o.roundingStrategy
          if nv ≠ uv.value then
            hostTry st1 (fun p =>
              ({ p.1 with lineHeight := some ⟨SizeUnit.PERCENT, nv⟩ }, statBump p.2 1 "lineHeight"))
          else Except.ok st1
        | SizeUnit.AUTO => Except.ok st1
      | none => Except.ok st1)
    match st2.1.letterSpacing with
    | some uv =>
      match uv.unit with
      | SizeUnit.PIXELS =>
        let nv := applyRoundingStrategy uv.value (orElseNum o.roundingFactorByProperty.fontSize 1) o.roundingStrategy
        if nv ≠ uv.value then
          hostTry st2 (fun p =>
            ({ p.1 with letterSpacing := some ⟨SizeUnit.PIXELS, nv⟩ }, statBump p.2 1 "letterSpacing"))
        else Except.ok st2
      | SizeUnit.PERCENT =>
        let nv := applyRoundingStrategy uv.value (orElseNum o.roundingFactorByProperty.fontSize 1) o.roundingStrategy
        if nv ≠ uv.value then
          hostTry st2 (fun p =>
            ({ p.1 with letterSpacing := some ⟨SizeUnit.PERCENT, nv⟩ }, statBump p.2 1 "letterSpacing"))
        else Except.ok st2
      | SizeUnit.AUTO => Except.ok st2
    | none => Except.ok st2
  else Except.ok st

/-- Vector network (code.ts lines 912-945).  The block has its own
`try`/`catch`: a failing `setVectorNetworkAsync` increments `errorCount`
and processing of the node continues. -/
def stepVector (o : RoundingOptions) (st : PSt) : Except PSt PSt :=
  if o.roundVectors then
    match st.1.vectorNetwork with
    | some vn =>
      let newNetwork := roundDeepNetwork vn o.roundingFactorByProperty.vectors o.roundingStrategy
      if newNetwork.vertices ≠ [] ∧ newNetwork.segments ≠ [] then
        let vertexCount : ℚ := newNetwork.vertices.length
        let validSegments := newNetwork.segments.filter
          (fun sg => decide (0 ≤ sg.start ∧ 0 ≤ sg.stop ∧ sg.start < vertexCount ∧ sg.stop < vertexCount))
        let validNetwork : VectorNetwork := ⟨newNetwork.vertices, validSegments⟩
        -- JSON.stringify comparison, modelled structurally
        if vn ≠ validNetwork then
          if st.1.mutationThrows then
            -- inner catch: log, count the error, continue with the node
            Except.ok (st.1, { st.2 with errorCount := st.2.errorCount + 1 })
          else
            Except.ok ({ st.1 with vectorNetwork := some validNetwork },
              statBump st.2 1 "vectorNetwork")
        else Except.ok st
      else Except.ok st
    | none => Except.ok st
  else Except.ok st

/-- Effects (code.ts lines 948-955): the whole list is deep-rounded and
replaced when the deep-rounded copy differs. -/
def stepEffects (o : RoundingOptions) (st : PSt) : Except PSt PSt :=
  if o.roundEffects then
    match st.1.effects with
    | some effs =>
      let newEffects := effs.map (fun e => roundDeepEffect e o.roundingFactorByProperty.effects o.roundingStrategy)
      if newEffects ≠ effs then
        hostTry st (fun p => ({ p.1 with effects := some newEffects }, statBump p.2 1 "effects"))
      else Except.ok st
    | none => Except.ok st
  else Except.ok st

/-- Uniform corner radius (code.ts lines 958-973): written through
`setCornerRadius` when available, else by direct assignment for the four
shape types, else silently dropped. -/
def stepCornerRadius (rf : ℚ) (o : RoundingOptions) (st : PSt) : Except PSt PSt :=
  match st.1.cornerRadius with
  | some r =>
    let newRadius := applyRoundingStrategy r (orElseNum o.roundingFactorByProperty.cornerRadius rf) o.roundingStrategy
    if newRadius ≠ r then
      if st.1.hasSetCornerRadius then
        hostTry st (fun p => ({ p.1 with cornerRadius := some newRadius }, statBump p.2 1 "cornerRadius"))
      else if st.1.type = NodeType.RECTANGLE ∨ st.1.type = NodeType.ELLIPSE ∨
          st.1.type = NodeType.POLYGON ∨ st.1.type = NodeType.STAR then
        hostTry st (fun p => ({ p.1 with cornerRadius := some newRadius }, statBump p.2 1 "cornerRadius"))
      else Except.ok st
    else Except.ok st
  | none => Except.ok st

/-- `node.setCornerRadii([topLeft, topRight, bottomRight, bottomLeft])`. -/
def setCornerRadiiD (d : NodeData) (tl tr br bl : ℚ) : NodeData :=
  { d with topLeftRadius := some tl, topRightRadius := some tr,
           bottomRightRadius := some br, bottomLeftRadius := some bl }

/-- Individual corner radii (code.ts lines 976-1001): if `topLeftRadius`
exists, only it is rounded and the other three are passed through
(`node.topRightRadius || 0`); otherwise, if any of the other three exists,
all four are rounded and set at once. -/
def stepCornerRadii (rf : ℚ) (o : RoundingOptions) (st : PSt) : Except PSt PSt :=
  let crf := orElseNum o.roundingFactorByProperty.cornerRadius rf
  match st.1.topLeftRadius with
  | some tl =>
    let newRadius := applyRoundingStrategy tl crf o.roundingStrategy
    if newRadius ≠ tl then
      if st.1.hasSetCornerRadii then
        hostTry st (fun p =>
          (setCornerRadiiD p.1 newRadius (p.1.topRightRadius.getD 0)
            (p.1.bottomRightRadius.getD 0) (p.1.bottomLeftRadius.getD 0),
           statBump p.2 1 "topLeftRadius"))
      else Except.ok st
    else Except.ok st
  | none =>
    if st.1.topRightRadius.isSome ∨ st.1.bottomRightRadius.isSome ∨ st.1.bottomLeftRadius.isSome then
      if st.1.hasSetCornerRadii then
        let topLeft : ℚ := 0
        let topRight := match st.1.topRightRadius with
          | some v => applyRoundingStrategy v crf o.roundingStrategy
          | none => 0
        let bottomRight := match st.1.bottomRightRadius with
          | some v => applyRoundingStrategy v crf o.roundingStrategy
          | none => 0
        let bottomLeft := match st.1.bottomLeftRadius with
          | some v => applyRoundingStrategy v crf o.roundingStrategy
          | none => 0
        if topLeft ≠ st.1.topLeftRadius.getD 0 ∨ topRight ≠ st.1.topRightRadius.getD 0 ∨
            bottomRight ≠ st.1.bottomRightRadius.getD 0 ∨ bottomLeft ≠ st.1.bottomLeftRadius.getD 0 then
          hostTry st (fun p =>
            (setCornerRadiiD p.1 topLeft topRight bottomRight bottomLeft,
             statBump p.2 1 "cornerRadii"))
        else Except.ok st
      else Except.ok st
    else Except.ok st

/-- The sequence of property blocks of `processNodeProperties`, in source
order. -/
def coreSteps (rf : ℚ) (o : RoundingOptions) (st : PSt) : Except PSt PSt := do
  let st2 ← stepX rf o st
  let st3 ← stepY rf o st2
  let st4 ← stepSize o st3
  let st5 ← stepSpacing o st4
  let st6 ← stepRotation rf o st5
  let st7 ← stepText o st6
  let st8 ← stepVector o st7
  let st9 ← stepEffects o st8
  let st10 ← stepCornerRadius rf o st9
  stepCornerRadii rf o st10

/-- The `try` body of `processNodeProperties`: count the node
(`stats.nodesProcessed++`), then run every property block. -/
def processCore (rf : ℚ) (o : RoundingOptions) (st : PSt) : Except PSt PSt :=
  coreSteps rf o (st.1, { st.2 with nodesProcessed := st.2.nodesProcessed + 1 })

/-- `processNodeProperties` (code.ts lines 673-1006): skip ignored types,
otherwise run the body; the catch keeps all state accumulated before the
throw and increments `errorCount`. -/
def processNodeProperties (rf : ℚ) (o : RoundingOptions) (d : NodeData)
    (stats : RoundingStats) : PSt :=
  if typeIgnored o d.type then (d, stats)
  else
    match processCore rf o (d, stats) with
    | Except.ok st => st
    | Except.error st => (st.1, { st.2 with errorCount := st.2.errorCount + 1 })

/-- Walk state: the per-run visited set, the caller's exclusion set, the
stats accumulator, and the log of processed nodes with their resulting
data (the host mutations). -/
structure WalkSt where
  processed : List ℕ
  excluded : List ℕ
  stats : RoundingStats
  out : List (ℕ × NodeData)
  deriving DecidableEq, Repr

/-- Mark the node visited, process it, and log the result. -/
def visitUpdate (rf : ℚ) (o : RoundingOptions) (d : NodeData) (st : WalkSt) : WalkSt :=
  let p := processNodeProperties rf o d st.stats
  { st with processed := st.processed ++ [d.id]
            stats := p.2
            out := st.out ++ [(d.id, p.1)] }

mutual

/-- `traverseChildren` (code.ts lines 1025-1058): skip already-processed or
excluded ids, process the node, then recurse into children — except for
instances, whose contents are never recursed into. -/
def traverseChildren (rf : ℚ) (o : RoundingOptions) : SceneNode → WalkSt → WalkSt
  | .node d kids, st =>
    if st.processed.contains d.id || st.excluded.contains d.id then st
    else
      let st1 := visitUpdate rf o d st
      if d.hasChildren then
        if d.type = NodeType.INSTANCE then st1
        else traverseNodes rf o kids st1
      else st1

def traverseNodes (rf : ℚ) (o : RoundingOptions) : List SceneNode → WalkSt → WalkSt
  | [], st => st
  | n :: ns, st => traverseNodes rf o ns (traverseChildren rf o n st)

end

/-- `roundPixels` (code.ts lines 1009-1077), document mode: iterates
`findAll()` — the flat list of every node of the page — calling
`traverseChildren` on each, with a fresh visited set and the caller's
exclusion set. -/
def roundPixels (rf : ℚ) (o : RoundingOptions) (stats : RoundingStats)
    (excludedNodes : List ℕ) (page : List SceneNode) : WalkSt :=
  traverseNodes rf o (flattenList page)
    { processed := [], excluded := excludedNodes, stats := stats, out := [] }

/-- `selectAndRoundType` (code.ts lines 1080-1163), selection mode: the same
traversal seeded only at the selected nodes. -/
def selectAndRoundType (rf : ℚ) (o : RoundingOptions) (stats : RoundingStats)
    (excludedNodes : List ℕ) (selection : List SceneNode) : WalkSt :=
  traverseNodes rf o selection
    { processed := [], excluded := excludedNodes, stats := stats, out := [] }

/-- A node with no optional capability present: every probe of the engine
fails on it.  Concrete scenes below override the relevant fields. -/
def blankData : NodeData :=
  { id := 0, name := "", type := NodeType.RECTANGLE, x := none, y := none,
    width := none, height := none, hasResize := false, rotation := none,
    layoutMode := none, primaryAxisSizingMode := SizingMode.AUTO,
    counterAxisSizingMode := SizingMode.AUTO, paddingLeft := none,
    paddingRight := none, paddingTop := none, paddingBottom := none,
    itemSpacing := none, fontSize := none, lineHeight := none,
    letterSpacing := none, autoRename := false,
    textAutoResize := TextAutoResize.NONE, effects := none,
    cornerRadius := none, topLeftRadius := none, topRightRadius := none,
    bottomLeftRadius := none, bottomRightRadius := none,
    hasSetCornerRadius := false, hasSetCornerRadii := false,
    vectorNetwork := none, hasChildren := false, mutationThrows := false }

/-- The fresh stats record the message handler creates (code.ts 116-122). -/
def initStats : RoundingStats := ⟨0, 0, 0, 0, []⟩

/-- A component instance at `x = 3/2`. -/
def c1InstData : NodeData :=
  { blankData with id := 1, name := "i", type := NodeType.INSTANCE, x := some (3/2) }

/-- Options whose `cornerRadius` group factor is zero (all others 1). -/
def c5Options : RoundingOptions :=
  { DEFAULT_OPTIONS with roundingFactorByProperty := ⟨1, 1, 1, 1, 1, 0⟩ }

/-- A rectangle with corner radius `3/2`. -/
def c5RectData : NodeData :=
  { blankData with id := 1, name := "r", type := NodeType.RECTANGLE, cornerRadius := some (3/2) }

/-- A component instance at `x = 3/2` with one child. -/
def c6InstData : NodeData :=
  { blankData with id := 1, name := "i", type := NodeType.INSTANCE,
                   x := some (3/2), hasChildren := true }

/-- The rectangle child of the instance, at `x = 3/2`. -/
def c6ChildData : NodeData :=
  { blankData with id := 2, name := "r", type := NodeType.RECTANGLE, x := some (3/2) }

/-- The page: the instance with its child. -/
def c6Scene : List SceneNode :=
  [SceneNode.node c6InstData [SceneNode.node c6ChildData []]]

/-- A rectangle at `x = 3/2`. -/
def c7RectData : NodeData :=
  { blankData with id := 1, name := "r", type := NodeType.RECTANGLE, x := some (3/2) }

/-- Well-formedness of a node's vector network: every segment references
vertex indices inside the vertex list (what the source's `validSegments`
filter checks). -/
def vnOk : Option VectorNetwork → Prop
  | some vn => ∀ sg ∈ vn.segments, 0 ≤ sg.start ∧ 0 ≤ sg.stop ∧
      sg.start < (vn.vertices.length : ℚ) ∧ sg.stop < (vn.vertices.length : ℚ)
  | none => True

/-- The state a step leaves behind, whether it returned normally or threw. -/
def postSt : Except PSt PSt → PSt
  | Except.ok st => st
  | Except.error st => st

/-- Options with every group factor strictly negative. -/
def c5NegOptions : RoundingOptions :=
  { DEFAULT_OPTIONS with roundingFactorByProperty := ⟨-1, -1, -1, -1, -1, -1⟩ }

/-- A node carrying a value in each property group. -/
def c5WitnessData : NodeData :=
  { blankData with
      id := 3, name := "w", type := NodeType.RECTANGLE,
      width := some (3/2), height := some (5/2), hasResize := true,
      cornerRadius := some (7/2), fontSize := some (23/2),
      effects := some [⟨some (5/4), none, none, none⟩] }

/-- The empty preview state. -/
def emptyPrev : PrevSt := ⟨⟨0, [], 0⟩, []⟩

/-- The data record of a scene node. -/
def SceneNode.data : SceneNode → NodeData
  | .node d _ => d

/-- A step outcome on a non-throwing node: normal return, flag still clear,
`errorCount` and `instancesSkipped` untouched. -/
def NoThrowStep (e : Except PSt PSt) (st : PSt) : Prop :=
  ∃ st', e = Except.ok st' ∧ st'.1.mutationThrows = false ∧
    st'.2.errorCount = st.2.errorCount ∧ st'.2.instancesSkipped = st.2.instancesSkipped

/-- A failing node: its host raises on any mutation, and its `x = 3/2`
needs rounding. -/
def c9FailData : NodeData :=
  { blankData with
      id := 1, name := "f", type := NodeType.RECTANGLE,
      x := some (3/2), mutationThrows := true }

/-- A well-behaved sibling. -/
def c9OkData : NodeData :=
  { blankData with id := 2, name := "g", type := NodeType.RECTANGLE, x := some (3/2) }

/-- The page with one failing node and one healthy node. -/
def c9Scene : List SceneNode :=
  [SceneNode.node c9FailData [], SceneNode.node c9OkData []]

/-- The fontSize stage of the text preview (code.ts lines 491-502), split
out of `previewText` so a single text property can be spoken about. -/
def previewFontSize (o : RoundingOptions) (d : NodeData) (st : PrevSt) : PrevSt :=
  match d.fontSize with
  | none => st
  | some fs =>
    let newSize := applyRoundingStrategy fs o.roundingFactorByProperty.fontSize o.roundingStrategy
    if newSize ≠ fs then pushPreview st d.id ⟨"fontSize", fs, newSize⟩ else st

/-- The lineHeight stage of the text preview (code.ts lines 503-525). -/
def previewLineHeight (o : RoundingOptions) (d : NodeData) (st : PrevSt) : PrevSt :=
  match d.lineHeight with
  | none => st
  | some uv =>
    match uv.unit with
    | SizeUnit.PIXELS =>
      let nv := applyRoundingStrategy uv.value (orElseNum o.roundingFactorByProperty.lineHeight 1) o.roundingStrategy
      if nv ≠ uv.value then pushPreview st d.id ⟨"lineHeight", uv.value, nv⟩ else st
    | SizeUnit.PERCENT =>
      let nv := applyRoundingStrategy uv.value (orElseNum o.roundingFactorByProperty.lineHeight 1) o.roundingStrategy
      if nv ≠ uv.value then pushPreview st d.id ⟨"lineHeight (%)", uv.value, nv⟩ else st
    | SizeUnit.AUTO => st

/-- The letterSpacing stage of the text preview (code.ts lines 526-547);
like the apply walk it reads the fontSize factor (`fontSize || 1`). -/
def previewLetterSpacing (o : RoundingOptions) (d : NodeData) (st : PrevSt) : PrevSt :=
  match d.letterSpacing with
  | none => st
  | some uv =>
    match uv.unit with
    | SizeUnit.PIXELS =>
      let nv := applyRoundingStrategy uv.value (orElseNum o.roundingFactorByProperty.fontSize 1) o.roundingStrategy
      if nv ≠ uv.value then pushPreview st d.id ⟨"letterSpacing", uv.value, nv⟩ else st
    | SizeUnit.PERCENT =>
      let nv := applyRoundingStrategy uv.value (orElseNum o.roundingFactorByProperty.fontSize 1) o.roundingStrategy
      if nv ≠ uv.value then pushPreview st d.id ⟨"letterSpacing (%)", uv.value, nv⟩ else st
    | SizeUnit.AUTO => st

/-- The values controlled by the `dimensions` factor (width, height, the
four paddings and item spacing) agree between `d` and `e`. -/
def DimsUnchanged (d e : NodeData) : Prop :=
  e.width = d.width ∧ e.height = d.height ∧
  e.paddingLeft = d.paddingLeft ∧ e.paddingRight = d.paddingRight ∧
  e.paddingTop = d.paddingTop ∧ e.paddingBottom = d.paddingBottom ∧
  e.itemSpacing = d.itemSpacing

/-- The values controlled by the `fontSize` factor (font size, and — a
source quirk — letter spacing) agree between `d` and `e`. -/
def FontUnchanged (d e : NodeData) : Prop :=
  e.fontSize = d.fontSize ∧ e.letterSpacing = d.letterSpacing

/-- The value controlled by the `lineHeight` factor agrees between `d` and `e`. -/
def LineHeightUnchanged (d e : NodeData) : Prop := e.lineHeight = d.lineHeight

/-- The value controlled by the `effects` factor agrees between `d` and `e`. -/
def EffectsUnchanged (d e : NodeData) : Prop := e.effects = d.effects

/-- The value controlled by the `vectors` factor agrees between `d` and `e`. -/
def VectorUnchanged (d e : NodeData) : Prop := e.vectorNetwork = d.vectorNetwork

/-- The values controlled by the `cornerRadius` factor (the uniform radius
and the four individual radii) agree between `d` and `e`. -/
def CornerUnchanged (d e : NodeData) : Prop :=
  e.cornerRadius = d.cornerRadius ∧ e.topLeftRadius = d.topLeftRadius ∧
  e.topRightRadius = d.topRightRadius ∧ e.bottomLeftRadius = d.bottomLeftRadius ∧
  e.bottomRightRadius = d.bottomRightRadius

/-! ## Part 2 — The verification: theorems about the embedding -/

/-- Ceiling in terms of floor, used to evaluate concrete ceilings. -/
theorem ceil_as_floor (a : ℚ) : ⌈a⌉ = -⌊-a⌋ := by
  rw [Int.floor_neg, neg_neg]

theorem jround_intCast (n : ℤ) : jround (n : ℚ) = n := by
  unfold jround
  rw [Int.floor_int_add]
  norm_num

theorem roundTo_of_intMul (k : ℕ) (x : ℚ) (n : ℤ) (h : x * 10 ^ k = (n : ℚ)) :
    roundTo k x = x := by
  unfold roundTo
  rw [h, jround_intCast]
  field_simp at h ⊢
  linarith [h]

theorem applyRoundingStrategy_nonpos (v f : ℚ) (s : RoundingStrategy) (hf : f ≤ 0) :
    applyRoundingStrategy v f s = v := by
  unfold applyRoundingStrategy
  simp [hf]

theorem applyRoundingStrategy_zero (f : ℚ) (s : RoundingStrategy) :
    applyRoundingStrategy 0 f s = 0 := by
  unfold applyRoundingStrategy
  split_ifs <;> simp_all

theorem applyRoundingStrategy_small (v f : ℚ) (s : RoundingStrategy)
    (hv : v ≠ 0) (hsmall : |v| < 1/1000) :
    applyRoundingStrategy v f s = v := by
  unfold applyRoundingStrategy
  split_ifs <;> simp_all

theorem applyRoundingStrategy_main (v f : ℚ) (s : RoundingStrategy)
    (hf : ¬ f ≤ 0) (hv : v ≠ 0) (hsmall : ¬ |v| < 1/1000) :
    applyRoundingStrategy v f s = roundTo 10 ((stratInt s (v / f) : ℚ) * f) := by
  unfold applyRoundingStrategy stratInt
  split_ifs
  cases s <;> rfl

/-- C2 (counterexample): the claim as stated — that in the main branch the
function returns the strategy-rounded `scaled` multiplied back by the factor,
with nothing further — is false at `value = 1/2`, `factor = 1/3`, strategy
`round`: the claimed value is `2 * (1/3) = 2/3`, but the code's final
ten-digit cleanup returns `0.6666666667` instead. -/
theorem c2_applyRounding_counterexample :
    applyRoundingStrategy (1/2) (1/3) RoundingStrategy.round ≠
      ((jround (roundTo 6 ((1/2 : ℚ) / (1/3))) : ℚ)) * (1/3) := by
  norm_num [applyRoundingStrategy, roundTo, jround, abs_of_nonneg]

/-- C2 (amended): `applyRoundingStrategy` returns the value unchanged for
`factor ≤ 0`, returns `0` for `value = 0`, returns the value unchanged for
`|value| < 1e-3`, and otherwise returns the strategy rounding of
`scaled = value / factor` (pre-rounded to six decimal digits under the
`round` strategy) multiplied back by the factor and then rounded to ten
decimal digits. -/
theorem c2_applyRounding_characterization (value factor : ℚ) (strategy : RoundingStrategy) :
    applyRoundingStrategy value factor strategy = applyRoundingSpec value factor strategy := by
  unfold applyRoundingStrategy applyRoundingSpec stratInt
  split_ifs <;> cases strategy <;> rfl

/-- C3 (counterexample): idempotence fails for `factor = 1/3` and strategy
`ceil` at `value = 1/2`: the first application yields `0.6666666667` (the
ten-digit cleanup of `2/3`), which is strictly above the grid point, so the
second `ceil` lands at `1`. -/
theorem c3_idempotence_counterexample :
    ¬ (applyRoundingStrategy
          (applyRoundingStrategy (1/2) (1/3) RoundingStrategy.ceil)
          (1/3) RoundingStrategy.ceil
        = applyRoundingStrategy (1/2) (1/3) RoundingStrategy.ceil) := by
  norm_num [applyRoundingStrategy, roundTo, jround, abs_of_nonneg, ceil_as_floor]

theorem stratInt_intCast (s : RoundingStrategy) (n : ℤ) : stratInt s (n : ℚ) = n := by
  cases s <;> unfold stratInt
  · rw [roundTo_of_intMul 6 (n : ℚ) (n * 10 ^ 6) (by push_cast; ring), jround_intCast]
  · exact Int.floor_intCast n
  · exact Int.ceil_intCast n

/-- C3 (amended): idempotence holds for every factor `f > 0` that is exactly
representable in ten decimal digits (`f = m / 10^10` for an integer `m`) —
for such factors the final ten-digit cleanup is exact, so a value already on
the grid maps to itself under any strategy.  (For other factors, such as
`1/3`, the cleanup can push the result off-grid; see the counterexample.) -/
theorem c3_idempotent_of_decimalFactor (v f : ℚ) (m : ℤ) (s : RoundingStrategy)
    (hf : 0 < f) (hm : f = (m : ℚ) / 10 ^ 10) :
    applyRoundingStrategy (applyRoundingStrategy v f s) f s
      = applyRoundingStrategy v f s := by
  have hf' : ¬ f ≤ 0 := not_le.mpr hf
  by_cases hv : v = 0
  · rw [hv, applyRoundingStrategy_zero, applyRoundingStrategy_zero]
  by_cases hsmall : |v| < 1/1000
  · rw [applyRoundingStrategy_small v f s hv hsmall,
        applyRoundingStrategy_small v f s hv hsmall]
  -- main branch of the first application
  rw [applyRoundingStrategy_main v f s hf' hv hsmall]
  set k : ℤ := stratInt s (v / f) with hk
  have hgrid : ((k : ℚ) * f) * 10 ^ 10 = ((k * m : ℤ) : ℚ) := by
    rw [hm]; push_cast; ring
  have hclean : roundTo 10 ((k : ℚ) * f) = (k : ℚ) * f :=
    roundTo_of_intMul 10 _ (k * m) hgrid
  rw [hclean]
  by_cases hk0 : k = 0
  · rw [hk0]; push_cast; rw [zero_mul, applyRoundingStrategy_zero]
  -- the on-grid value k * f is nonzero
  have hw0 : (k : ℚ) * f ≠ 0 := by
    have : (k : ℚ) ≠ 0 := Int.cast_ne_zero.mpr hk0
    positivity
  by_cases hwsmall : |(k : ℚ) * f| < 1/1000
  · exact applyRoundingStrategy_small _ f s hw0 hwsmall
  rw [applyRoundingStrategy_main _ f s hf' hw0 hwsmall]
  have hdiv : ((k : ℚ) * f) / f = (k : ℚ) := by
    field_simp
  rw [hdiv, stratInt_intCast, hclean]

/-- Witness for C3 (amended) at `v = 3/4`, `f = 1/2 = 5000000000 / 10^10`,
strategy `round`. -/
theorem c3_idempotent_witness :
    applyRoundingStrategy
        (applyRoundingStrategy (3/4) (1/2) RoundingStrategy.round)
        (1/2) RoundingStrategy.round
      = applyRoundingStrategy (3/4) (1/2) RoundingStrategy.round :=
  c3_idempotent_of_decimalFactor (3/4) (1/2) 5000000000 RoundingStrategy.round
    (by norm_num) (by norm_num)

/-- C4 (counterexample): at `width = 3/4`, `height = 1/2`, `factor = 1`,
strategy `round`, both dimensions round to 1, the aspect drifts by 1/3, and
the two corrective alternatives (1,1) and (2,1) are both off the original
aspect 3/2 by exactly 1/2 — an exact tie.  The claim's tie rule picks
alternative (a) = (1,1); the code returns alternative (b) = (2,1). -/
theorem c4_preserveProportions_counterexample :
    preserveProportions (3/4) (1/2) 1 RoundingStrategy.round = (2, 1) ∧
      preserveProportionsClaim (3/4) (1/2) 1 RoundingStrategy.round = (1, 1) := by
  constructor <;>
    norm_num [preserveProportions, preserveProportionsClaim,
      applyRoundingStrategy, roundTo, jround, abs_of_nonneg]

/-- C4 (amended): for all positive dimensions, `preserveProportions` returns
the independently rounded pair when the relative aspect drift is within 1%,
and otherwise whichever corrective alternative has the closer aspect —
except that an exact tie returns alternative (b), not (a). -/
theorem c4_preserveProportions_characterization (width height factor : ℚ)
    (strategy : RoundingStrategy) (hw : 0 < width) (hh : 0 < height) :
    preserveProportions width height factor strategy
      = preserveProportionsAmended width height factor strategy := by
  unfold preserveProportions preserveProportionsAmended
  simp only []
  split_ifs with h1 h2 h3 <;> first
    | rfl
    | (exfalso; linarith)

/-- Witness for C4 (amended) at `width = 3/2`, `height = 5/4`, factor 1. -/
theorem c4_preserveProportions_witness :
    preserveProportions (3/2) (5/4) 1 RoundingStrategy.round
      = preserveProportionsAmended (3/2) (5/4) 1 RoundingStrategy.round :=
  c4_preserveProportions_characterization (3/2) (5/4) 1 RoundingStrategy.round
    (by norm_num) (by norm_num)

/-- C10: `preserveProportions` is total at `height = 0`: no error is raised
(division is total in the model, as in JS) and the function returns the two
independently rounded values — the rounded width and `0` — because the
aspect-drift comparison against the degenerate aspect never succeeds, so the
corrective branch is unreachable.  (In JS the comparison is `NaN > 0.01`,
which is false; in this model `x / 0 = 0` makes the drift `0`, which is also
not greater than `1/100`: the same branch is taken.) -/
theorem c10_preserveProportions_heightZero (width factor : ℚ) (strategy : RoundingStrategy) :
    preserveProportions width 0 factor strategy
      = (applyRoundingStrategy width factor strategy, 0) := by
  unfold preserveProportions
  simp [applyRoundingStrategy_zero]

/-- C1 (failing input): a page holding a single component instance at
`x = 3/2`, default options (`detachInstances = false`), factor 1.  The
preview walk skips the instance before looking at any property, so it
reports no `(node, property)` pair at all; the apply walk processes the
instance's own properties and mutates its `x` from `3/2` to `2`.  The set
of pairs reported with a non-zero delta by preview (empty) therefore
differs from the set of pairs mutated by apply (`{(1, x)}`). -/
theorem c1_preview_apply_divergence :
    (previewRoundingChanges 1 DEFAULT_OPTIONS [SceneNode.node c1InstData []] [] false).changes.propertyChanges = []
    ∧ (roundPixels 1 DEFAULT_OPTIONS initStats [] [SceneNode.node c1InstData []]).out
        = [(1, { c1InstData with x := some 2 })]
    ∧ c1InstData.x = some (3/2) := by
  refine ⟨?_, ?_, rfl⟩ <;>
  norm_num +decide [previewRoundingChanges, previewNodes, previewNode, previewVisit, previewXY,
    previewSize, previewText, previewEffects, previewCorner, previewCornerIndividual,
    pushPreview, pushChange, ensureEntry, pruneChanges, typeIgnored, orElseNum,
    flattenList, flattenOne, applyRoundingStrategy, roundTo, jround, abs_of_nonneg,
    DEFAULT_OPTIONS, c1InstData, blankData, initStats,
    roundPixels, traverseNodes, traverseChildren, visitUpdate, processNodeProperties,
    processCore, coreSteps, stepX, stepY, stepSize, stepSpacing, stepRotation, stepText, stepVector,
    stepEffects, stepCornerRadius, stepCornerRadii, tryRoundField, hostTry, statBump,
    addProp, hasAutoLayout, Except.bind, bind]

/-- C5 (counterexample): with the `cornerRadius` group factor set to `0`
(non-positive) and legacy factor 1, the claim says the corner radius is
left unchanged; but `options.roundingFactorByProperty.cornerRadius ||
roundingFactor` treats the zero factor as falsy and substitutes the legacy
factor 1, so both preview and apply round the radius `3/2` to `2`. -/
theorem c5_zeroFactor_counterexample :
    (previewRoundingChanges 1 c5Options [SceneNode.node c5RectData []] [] false).changes.propertyChanges
      = [(1, ⟨"r", NodeType.RECTANGLE, [⟨"cornerRadius", 3/2, 2⟩]⟩)]
    ∧ (roundPixels 1 c5Options initStats [] [SceneNode.node c5RectData []]).out
        = [(1, { c5RectData with cornerRadius := some 2 })] := by
  constructor <;>
  norm_num +decide [previewRoundingChanges, previewNodes, previewNode, previewVisit, previewXY,
    previewSize, previewText, previewEffects, previewCorner, previewCornerIndividual,
    pushPreview, pushChange, ensureEntry, pruneChanges, typeIgnored, orElseNum,
    flattenList, flattenOne, applyRoundingStrategy, roundTo, jround, abs_of_nonneg,
    DEFAULT_OPTIONS, c5Options, c5RectData, blankData, initStats,
    roundPixels, traverseNodes, traverseChildren, visitUpdate, processNodeProperties,
    processCore, coreSteps, stepX, stepY, stepSize, stepSpacing, stepRotation, stepText, stepVector,
    stepEffects, stepCornerRadius, stepCornerRadii, tryRoundField, hostTry, statBump,
    addProp, hasAutoLayout, Except.bind, bind]

/-- C6 (counterexample): on a page holding a non-detached instance with one
child, the document-mode apply walk (a) never increments
`instancesSkipped` — the claim says it increments by exactly 1 — and
(b) still mutates the instance's descendant: recursion stops at the
instance boundary, but `findAll()` already lists the child, so the flat
loop processes it directly (`x : 3/2 ↦ 2`). -/
theorem c6_instance_counterexample :
    (roundPixels 1 DEFAULT_OPTIONS initStats [] c6Scene).stats.instancesSkipped = 0
    ∧ (roundPixels 1 DEFAULT_OPTIONS initStats [] c6Scene).out
        = [(1, { c6InstData with x := some 2 }), (2, { c6ChildData with x := some 2 })] := by
  constructor <;>
  norm_num +decide [flattenList, flattenOne, applyRoundingStrategy, roundTo, jround,
    abs_of_nonneg, typeIgnored, orElseNum,
    DEFAULT_OPTIONS, c6InstData, c6ChildData, c6Scene, blankData, initStats,
    roundPixels, traverseNodes, traverseChildren, visitUpdate, processNodeProperties,
    processCore, coreSteps, stepX, stepY, stepSize, stepSpacing, stepRotation, stepText, stepVector,
    stepEffects, stepCornerRadius, stepCornerRadii, tryRoundField, hostTry, statBump,
    addProp, hasAutoLayout, Except.bind, bind]

/-- C7 (counterexample): `previewRoundingChanges` takes no exclusion set at
all, so a node id placed in the caller's exclusion set still produces a
preview entry (here `x : 3/2 → 2`) and is still counted by the preview —
the claim's "zero entries in the preview output" fails.  (The apply side
honors the exclusion: no mutation, and stats remain untouched.) -/
theorem c7_exclusion_counterexample :
    (previewRoundingChanges 1 DEFAULT_OPTIONS [SceneNode.node c7RectData []] [] false).changes.propertyChanges
      = [(1, ⟨"r", NodeType.RECTANGLE, [⟨"x", 3/2, 2⟩]⟩)]
    ∧ (roundPixels 1 DEFAULT_OPTIONS initStats [1] [SceneNode.node c7RectData []]).out = []
    ∧ (roundPixels 1 DEFAULT_OPTIONS initStats [1] [SceneNode.node c7RectData []]).stats = initStats := by
  refine ⟨?_, ?_, ?_⟩ <;>
  norm_num +decide [previewRoundingChanges, previewNodes, previewNode, previewVisit, previewXY,
    previewSize, previewText, previewEffects, previewCorner, previewCornerIndividual,
    pushPreview, pushChange, ensureEntry, pruneChanges, typeIgnored, orElseNum,
    flattenList, flattenOne, applyRoundingStrategy, roundTo, jround, abs_of_nonneg,
    DEFAULT_OPTIONS, c7RectData, blankData, initStats,
    roundPixels, traverseNodes, traverseChildren, visitUpdate, processNodeProperties,
    processCore, coreSteps, stepX, stepY, stepSize, stepSpacing, stepRotation, stepText, stepVector,
    stepEffects, stepCornerRadius, stepCornerRadii, tryRoundField, hostTry, statBump,
    addProp, hasAutoLayout, Except.bind, bind]

theorem except_bind_ok {ε α β : Type} (a : α) (f : α → Except ε β) :
    (Except.ok a >>= f) = f a := rfl

theorem except_bind_error {ε α β : Type} (e : ε) (f : α → Except ε β) :
    ((Except.error e : Except ε α) >>= f) = Except.error e := rfl

theorem except_pure {ε α : Type} (a : α) : (pure a : Except ε α) = Except.ok a := rfl

theorem orElseNum_of_ne (a b : ℚ) (h : a ≠ 0) : orElseNum a b = a := by
  unfold orElseNum
  simp [h]

theorem preserveProportions_nonpos (w h f : ℚ) (s : RoundingStrategy) (hf : f ≤ 0) :
    preserveProportions w h f s = (w, h) := by
  unfold preserveProportions
  simp [applyRoundingStrategy_nonpos _ _ _ hf]

theorem roundDeepEffect_nonpos (e : Effect) (f : ℚ) (s : RoundingStrategy) (hf : f ≤ 0) :
    roundDeepEffect e f s = e := by
  unfold roundDeepEffect
  simp [applyRoundingStrategy_nonpos _ _ _ hf]

theorem roundDeepNetwork_nonpos (vn : VectorNetwork) (f : ℚ) (s : RoundingStrategy) (hf : f ≤ 0) :
    roundDeepNetwork vn f s = vn := by
  unfold roundDeepNetwork roundDeepVertex roundDeepSegment
  simp [applyRoundingStrategy_nonpos _ _ _ hf]

/-- A `tryRoundField` with a non-positive factor never fires. -/
theorem tryRoundField_nonpos (st : PSt) (read : NodeData → Option ℚ) (f : ℚ)
    (strat : RoundingStrategy) (write : NodeData → ℚ → NodeData) (nm : String)
    (hf : f ≤ 0) :
    tryRoundField st read f strat write nm = Except.ok st := by
  unfold tryRoundField
  cases read st.1 <;> simp [applyRoundingStrategy_nonpos _ _ _ hf]

/-- The three possible outcomes of a `tryRoundField`. -/
theorem tryRoundField_outcomes (st : PSt) (read : NodeData → Option ℚ) (f : ℚ)
    (strat : RoundingStrategy) (write : NodeData → ℚ → NodeData) (nm : String) :
    tryRoundField st read f strat write nm = Except.ok st ∨
    tryRoundField st read f strat write nm = Except.error st ∨
    ∃ v, tryRoundField st read f strat write nm
      = Except.ok (write st.1 v, statBump st.2 1 nm) := by
  unfold tryRoundField hostTry
  cases read st.1 with
  | none => exact Or.inl rfl
  | some v =>
    dsimp only []
    split_ifs
    · exact Or.inr (Or.inl rfl)
    · exact Or.inr (Or.inr ⟨_, rfl⟩)
    · exact Or.inl rfl

theorem stepSize_id (o : RoundingOptions) (st : PSt)
    (hdims : o.roundingFactorByProperty.dimensions ≤ 0) :
    stepSize o st = Except.ok st := by
  unfold stepSize
  have hid := fun (v : ℚ) => applyRoundingStrategy_nonpos v _ o.roundingStrategy hdims
  have htf := fun read write nm =>
    tryRoundField_nonpos st read o.roundingFactorByProperty.dimensions o.roundingStrategy write nm hdims
  cases hw : st.1.width with
  | none => rfl
  | some w =>
    cases hh : st.1.height with
    | none => rfl
    | some h =>
      dsimp only []
      split_ifs with h1 h2 h3 h4 h5 <;>
        simp_all [htf, preserveProportions_nonpos _ _ _ _ hdims, hid, except_bind_ok, tryRoundField_nonpos]

theorem stepSpacing_id (o : RoundingOptions) (st : PSt)
    (hdims : o.roundingFactorByProperty.dimensions ≤ 0) :
    stepSpacing o st = Except.ok st := by
  unfold stepSpacing
  have hid := fun (v : ℚ) => applyRoundingStrategy_nonpos v _ o.roundingStrategy hdims
  split_ifs with h1
  · cases hp : st.1.paddingLeft <;>
      simp_all [except_bind_ok, tryRoundField_nonpos _ _ _ _ _ _ hdims, hid]
  · rfl

theorem stepVector_id (o : RoundingOptions) (st : PSt)
    (hvec : o.roundingFactorByProperty.vectors ≤ 0)
    (hwf : vnOk st.1.vectorNetwork) :
    stepVector o st = Except.ok st := by
  unfold stepVector
  cases hrv : o.roundVectors
  · simp only [hrv]
    rfl
  · simp only [hrv]
    cases hvn : st.1.vectorNetwork with
    | none => rfl
    | some vn =>
      rw [hvn] at hwf
      have hfilter : vn.segments.filter
          (fun sg => decide (0 ≤ sg.start) && (decide (0 ≤ sg.stop) &&
            (decide (sg.start < (vn.vertices.length : ℚ)) &&
             decide (sg.stop < (vn.vertices.length : ℚ))))) = vn.segments := by
        apply List.filter_eq_self.mpr
        intro sg hsg
        obtain ⟨a, b, c, d⟩ := hwf sg hsg
        simp [a, b, c, d]
      simp only [roundDeepNetwork_nonpos _ _ _ hvec]
      simp
      intro hv hs hne
      exact (hne (by rw [hfilter])).elim

theorem stepEffects_id (o : RoundingOptions) (st : PSt)
    (heff : o.roundingFactorByProperty.effects ≤ 0) :
    stepEffects o st = Except.ok st := by
  unfold stepEffects
  split_ifs with h1
  · cases heffs : st.1.effects with
    | none => rfl
    | some effs =>
      simp [roundDeepEffect_nonpos _ _ _ heff]
  · rfl

theorem stepCornerRadius_id (rf : ℚ) (o : RoundingOptions) (st : PSt)
    (hcr : o.roundingFactorByProperty.cornerRadius < 0) :
    stepCornerRadius rf o st = Except.ok st := by
  unfold stepCornerRadius
  cases hc : st.1.cornerRadius with
  | none => rfl
  | some r =>
    simp [orElseNum_of_ne _ _ (ne_of_lt hcr),
      applyRoundingStrategy_nonpos _ _ _ (le_of_lt hcr)]

theorem stepCornerRadii_id (rf : ℚ) (o : RoundingOptions) (st : PSt)
    (hcr : o.roundingFactorByProperty.cornerRadius < 0) :
    stepCornerRadii rf o st = Except.ok st := by
  unfold stepCornerRadii
  have hf := orElseNum_of_ne o.roundingFactorByProperty.cornerRadius rf (ne_of_lt hcr)
  have hid := fun (v : ℚ) =>
    applyRoundingStrategy_nonpos v o.roundingFactorByProperty.cornerRadius o.roundingStrategy (le_of_lt hcr)
  cases htl : st.1.topLeftRadius with
  | some tl => simp [hf, hid]
  | none =>
    dsimp only []
    split_ifs with h1 h2 h3
    · exfalso
      rcases h3 with h | h | h | h
      · simp [htl] at h
      · cases hv : st.1.topRightRadius <;> simp_all [hid]
      · cases hv : st.1.bottomRightRadius <;> simp_all [hid]
      · cases hv : st.1.bottomLeftRadius <;> simp_all [hid]
    · rfl
    · rfl
    · rfl

theorem foldl_id {α β : Type} (g : β → α → β) (h : ∀ b a, g b a = b) :
    ∀ (l : List α) (b : β), l.foldl g b = b := by
  intro l
  induction l with
  | nil => intro b; rfl
  | cons a as ih => intro b; rw [List.foldl_cons, h, ih]

theorem previewSize_id (o : RoundingOptions) (d : NodeData) (st : PrevSt)
    (hdims : o.roundingFactorByProperty.dimensions ≤ 0) :
    previewSize o d st = st := by
  unfold previewSize
  cases hw : d.width with
  | none => rfl
  | some w =>
    cases hh : d.height with
    | none => rfl
    | some h =>
      dsimp only []
      split_ifs with h1 <;>
        simp_all [preserveProportions_nonpos _ _ _ _ hdims,
          applyRoundingStrategy_nonpos _ _ _ hdims]

theorem previewEffects_id (o : RoundingOptions) (d : NodeData) (st : PrevSt)
    (heff : o.roundingFactorByProperty.effects ≤ 0) :
    previewEffects o d st = st := by
  unfold previewEffects
  split_ifs with h1
  · cases heffs : d.effects with
    | none => rfl
    | some effs =>
      dsimp only []
      apply foldl_id
      intro acc p
      cases hr : p.2.radius with
      | none => rfl
      | some r => simp [applyRoundingStrategy_nonpos _ _ _ heff]
  · rfl

theorem previewCorner_id (rf : ℚ) (o : RoundingOptions) (d : NodeData) (st : PrevSt)
    (hcr : o.roundingFactorByProperty.cornerRadius < 0) :
    previewCorner rf o d st = st := by
  unfold previewCorner
  cases hc : d.cornerRadius with
  | none => rfl
  | some r =>
    simp [orElseNum_of_ne _ _ (ne_of_lt hcr),
      applyRoundingStrategy_nonpos _ _ _ (le_of_lt hcr)]

theorem previewCornerIndividual_id (rf : ℚ) (o : RoundingOptions) (d : NodeData) (st : PrevSt)
    (hcr : o.roundingFactorByProperty.cornerRadius < 0) :
    previewCornerIndividual rf o d st = st := by
  unfold previewCornerIndividual
  have hf := orElseNum_of_ne o.roundingFactorByProperty.cornerRadius rf (ne_of_lt hcr)
  have hid := fun (v : ℚ) =>
    applyRoundingStrategy_nonpos v o.roundingFactorByProperty.cornerRadius o.roundingStrategy (le_of_lt hcr)
  cases h1 : d.topLeftRadius <;> cases h2 : d.topRightRadius <;>
    cases h3 : d.bottomLeftRadius <;> cases h4 : d.bottomRightRadius <;>
    simp_all [hf, hid]

theorem previewText_decompose (o : RoundingOptions) (d : NodeData) (st : PrevSt) :
    previewText o d st =
      if d.type ≠ NodeType.TEXT then st
      else previewLetterSpacing o d (previewLineHeight o d (previewFontSize o d st)) := by
  unfold previewText previewFontSize previewLineHeight previewLetterSpacing
  split_ifs with h
  · rfl
  · rfl

theorem previewFontSize_id (o : RoundingOptions) (d : NodeData) (st : PrevSt)
    (hfs : o.roundingFactorByProperty.fontSize ≤ 0) :
    previewFontSize o d st = st := by
  unfold previewFontSize
  cases hf : d.fontSize <;> simp [applyRoundingStrategy_nonpos _ _ _ hfs]

theorem previewLineHeight_id (o : RoundingOptions) (d : NodeData) (st : PrevSt)
    (hlh : o.roundingFactorByProperty.lineHeight < 0) :
    previewLineHeight o d st = st := by
  unfold previewLineHeight
  have h0 := orElseNum_of_ne o.roundingFactorByProperty.lineHeight 1 (ne_of_lt hlh)
  cases hl : d.lineHeight with
  | none => rfl
  | some uv =>
    cases uv with
    | mk u v => cases u <;> simp_all [applyRoundingStrategy_nonpos _ _ _ (le_of_lt hlh)]

theorem previewLetterSpacing_id (o : RoundingOptions) (d : NodeData) (st : PrevSt)
    (hfs : o.roundingFactorByProperty.fontSize < 0) :
    previewLetterSpacing o d st = st := by
  unfold previewLetterSpacing
  have h0 := orElseNum_of_ne o.roundingFactorByProperty.fontSize 1 (ne_of_lt hfs)
  cases hl : d.letterSpacing with
  | none => rfl
  | some uv =>
    cases uv with
    | mk u v => cases u <;> simp_all [applyRoundingStrategy_nonpos _ _ _ (le_of_lt hfs)]

/-- The post-state of a bind satisfies `P` when the first stage's post-state
does and the continuation preserves it from any normal result. -/
theorem bind_post (P : PSt → Prop) (e : Except PSt PSt) (f : PSt → Except PSt PSt)
    (he : P (postSt e)) (hf : ∀ s, e = Except.ok s → P s → P (postSt (f s))) :
    P (postSt (e >>= f)) := by
  cases e with
  | error s => exact he
  | ok s => exact hf s rfl he

/-- A host call leaves a state satisfying `P` when both the unmutated state
(kept on a throw) and the updated state satisfy it. -/
theorem hostTry_post (P : PSt → Prop) (st : PSt) (upd : PSt → PSt)
    (hst : P st) (hupd : P (upd st)) : P (postSt (hostTry st upd)) := by
  unfold hostTry
  split_ifs
  · exact hst
  · exact hupd

/-- The node left behind by a `tryRoundField` is either the original or a
single application of its write function. -/
theorem tryRoundField_post (Q : NodeData → Prop) (st : PSt) (read : NodeData → Option ℚ)
    (f : ℚ) (strat : RoundingStrategy) (write : NodeData → ℚ → NodeData) (nm : String)
    (hst : Q st.1) (hw : ∀ v, Q (write st.1 v)) :
    Q (postSt (tryRoundField st read f strat write nm)).1 := by
  rcases tryRoundField_outcomes st read f strat write nm with h | h | ⟨v, h⟩ <;> rw [h]
  · exact hst
  · exact hst
  · exact hw v

/-- Case analysis on an `if` under `postSt`. -/
theorem ite_post (P : PSt → Prop) (c : Prop) [Decidable c] (a b : Except PSt PSt)
    (ha : c → P (postSt a)) (hb : ¬ c → P (postSt b)) : P (postSt (ite c a b)) := by
  split_ifs with h
  · exact ha h
  · exact hb h

/-- `stepX` writes only the `x` field. -/
theorem stepX_post (Q : NodeData → Prop) (rf : ℚ) (o : RoundingOptions) (st : PSt)
    (hw : ∀ (dd : NodeData) (v : ℚ), Q dd → Q { dd with x := some v })
    (hst : Q st.1) : Q (postSt (stepX rf o st)).1 := by
  unfold stepX
  exact tryRoundField_post Q st _ _ _ _ _ hst (fun v => hw st.1 v hst)

/-- `stepY` writes only the `y` field. -/
theorem stepY_post (Q : NodeData → Prop) (rf : ℚ) (o : RoundingOptions) (st : PSt)
    (hw : ∀ (dd : NodeData) (v : ℚ), Q dd → Q { dd with y := some v })
    (hst : Q st.1) : Q (postSt (stepY rf o st)).1 := by
  unfold stepY
  exact tryRoundField_post Q st _ _ _ _ _ hst (fun v => hw st.1 v hst)

/-- `stepRotation` writes only the `rotation` field. -/
theorem stepRotation_post (Q : NodeData → Prop) (rf : ℚ) (o : RoundingOptions) (st : PSt)
    (hw : ∀ (dd : NodeData) (v : ℚ), Q dd → Q { dd with rotation := some v })
    (hst : Q st.1) : Q (postSt (stepRotation rf o st)).1 := by
  unfold stepRotation
  exact tryRoundField_post Q st _ _ _ _ _ hst (fun v => hw st.1 v hst)

/-- `stepSize` writes only the `width` and `height` fields. -/
theorem stepSize_post (Q : NodeData → Prop) (o : RoundingOptions) (st : PSt)
    (hw : ∀ (dd : NodeData) (w h : Option ℚ), Q dd → Q { dd with width := w, height := h })
    (hst : Q st.1) : Q (postSt (stepSize o st)).1 := by
  have hwW : ∀ (s : PSt), Q s.1 → ∀ v : ℚ, Q { s.1 with width := some v } :=
    fun s hs v => hw s.1 (some v) s.1.height hs
  have hwH : ∀ (s : PSt), Q s.1 → ∀ v : ℚ, Q { s.1 with height := some v } :=
    fun s hs v => hw s.1 s.1.width (some v) hs
  unfold stepSize
  cases hWd : st.1.width with
  | none => exact hst
  | some w =>
    cases hHt : st.1.height with
    | none => exact hst
    | some h =>
      dsimp only []
      refine ite_post (fun s => Q s.1) _ _ _ (fun h1 => ?_) (fun h1 => hst)
      refine ite_post (fun s => Q s.1) _ _ _ (fun h2 => ?_) (fun h2 => ?_)
      · -- TEXT branch
        refine bind_post (fun s => Q s.1) _ _ ?_ ?_
        · exact ite_post (fun s => Q s.1) _ _ _
            (fun h3 => tryRoundField_post Q st _ _ _ _ _ hst (fun v => hwW st hst v))
            (fun h3 => hst)
        · intro s1 _ hq1
          exact ite_post (fun s => Q s.1) _ _ _
            (fun h4 => tryRoundField_post Q s1 _ _ _ _ _ hq1 (fun v => hwH s1 hq1 v))
            (fun h4 => hq1)
      · refine ite_post (fun s => Q s.1) _ _ _ (fun h3 => ?_) (fun h3 => ?_)
        · -- auto-layout branch
          refine bind_post (fun s => Q s.1) _ _ ?_ ?_
          · exact ite_post (fun s => Q s.1) _ _ _
              (fun h4 => tryRoundField_post Q st _ _ _ _ _ hst (fun v => hwW st hst v))
              (fun h4 => hst)
          · intro s1 _ hq1
            refine bind_post (fun s => Q s.1) _ _ ?_ ?_
            · exact ite_post (fun s => Q s.1) _ _ _
                (fun h5 => tryRoundField_post Q s1 _ _ _ _ _ hq1 (fun v => hwH s1 hq1 v))
                (fun h5 => hq1)
            · intro s2 _ hq2
              refine bind_post (fun s => Q s.1) _ _ ?_ ?_
              · exact ite_post (fun s => Q s.1) _ _ _
                  (fun h6 => tryRoundField_post Q s2 _ _ _ _ _ hq2 (fun v => hwH s2 hq2 v))
                  (fun h6 => hq2)
              · intro s3 _ hq3
                exact ite_post (fun s => Q s.1) _ _ _
                  (fun h7 => tryRoundField_post Q s3 _ _ _ _ _ hq3 (fun v => hwW s3 hq3 v))
                  (fun h7 => hq3)
        · -- plain resize branch
          exact ite_post (fun s => Q s.1) _ _ _
            (fun h4 => hostTry_post (fun s => Q s.1) st _ hst (hw st.1 _ _ hst))
            (fun h4 => hst)

/-- `stepSpacing` writes only the four padding fields and `itemSpacing`. -/
theorem stepSpacing_post (Q : NodeData → Prop) (o : RoundingOptions) (st : PSt)
    (hw : ∀ (dd : NodeData) (pl pr pt pb isp : Option ℚ), Q dd →
      Q { dd with paddingLeft := pl, paddingRight := pr, paddingTop := pt,
                  paddingBottom := pb, itemSpacing := isp })
    (hst : Q st.1) : Q (postSt (stepSpacing o st)).1 := by
  have hPL : ∀ (s : PSt), Q s.1 → ∀ v : ℚ, Q { s.1 with paddingLeft := some v } :=
    fun s hs v => hw s.1 (some v) s.1.paddingRight s.1.paddingTop s.1.paddingBottom s.1.itemSpacing hs
  have hPR : ∀ (s : PSt), Q s.1 → ∀ v : ℚ, Q { s.1 with paddingRight := some v } :=
    fun s hs v => hw s.1 s.1.paddingLeft (some v) s.1.paddingTop s.1.paddingBottom s.1.itemSpacing hs
  have hPT : ∀ (s : PSt), Q s.1 → ∀ v : ℚ, Q { s.1 with paddingTop := some v } :=
    fun s hs v => hw s.1 s.1.paddingLeft s.1.paddingRight (some v) s.1.paddingBottom s.1.itemSpacing hs
  have hPB : ∀ (s : PSt), Q s.1 → ∀ v : ℚ, Q { s.1 with paddingBottom := some v } :=
    fun s hs v => hw s.1 s.1.paddingLeft s.1.paddingRight s.1.paddingTop (some v) s.1.itemSpacing hs
  have hIS : ∀ (s : PSt), Q s.1 → ∀ v : ℚ, Q { s.1 with itemSpacing := some v } :=
    fun s hs v => hw s.1 s.1.paddingLeft s.1.paddingRight s.1.paddingTop s.1.paddingBottom (some v) hs
  unfold stepSpacing
  split_ifs with h1
  · refine bind_post (fun s => Q s.1) _ _ ?_ ?_
    · cases hpl : st.1.paddingLeft with
      | some pl =>
        dsimp only []
        split_ifs with h2 h3
        · exact hostTry_post (fun s => Q s.1) st _ hst
            (hw st.1 _ _ _ _ st.1.itemSpacing hst)
        · exact hst
        · refine bind_post (fun s => Q s.1) _ _
            (tryRoundField_post Q st _ _ _ _ _ hst (fun v => hPL st hst v)) ?_
          intro a _ ha
          refine bind_post (fun s => Q s.1) _ _
            (tryRoundField_post Q a _ _ _ _ _ ha (fun v => hPR a ha v)) ?_
          intro b _ hb
          refine bind_post (fun s => Q s.1) _ _
            (tryRoundField_post Q b _ _ _ _ _ hb (fun v => hPT b hb v)) ?_
          intro c _ hc
          exact tryRoundField_post Q c _ _ _ _ _ hc (fun v => hPB c hc v)
      | none =>
        refine bind_post (fun s => Q s.1) _ _
          (tryRoundField_post Q st _ _ _ _ _ hst (fun v => hPR st hst v)) ?_
        intro b _ hb
        refine bind_post (fun s => Q s.1) _ _
          (tryRoundField_post Q b _ _ _ _ _ hb (fun v => hPT b hb v)) ?_
        intro c _ hc
        exact tryRoundField_post Q c _ _ _ _ _ hc (fun v => hPB c hc v)
    · intro s1 _ h1'
      exact tryRoundField_post Q s1 _ _ _ _ _ h1' (fun v => hIS s1 h1' v)
  · exact hst

/-- `stepText` writes only the `fontSize`, `lineHeight` and `letterSpacing`
fields. -/
theorem stepText_post (Q : NodeData → Prop) (o : RoundingOptions) (st : PSt)
    (hw : ∀ (dd : NodeData) (fs : Option ℚ) (lh ls : Option UnitValue), Q dd →
      Q { dd with fontSize := fs, lineHeight := lh, letterSpacing := ls })
    (hst : Q st.1) : Q (postSt (stepText o st)).1 := by
  have hFS : ∀ (s : PSt), Q s.1 → ∀ v : ℚ, Q { s.1 with fontSize := some v } :=
    fun s hs v => hw s.1 (some v) s.1.lineHeight s.1.letterSpacing hs
  have hLH : ∀ (s : PSt), Q s.1 → ∀ uv : UnitValue, Q { s.1 with lineHeight := some uv } :=
    fun s hs uv => hw s.1 s.1.fontSize (some uv) s.1.letterSpacing hs
  have hLS : ∀ (s : PSt), Q s.1 → ∀ uv : UnitValue, Q { s.1 with letterSpacing := some uv } :=
    fun s hs uv => hw s.1 s.1.fontSize s.1.lineHeight (some uv) hs
  unfold stepText
  split_ifs with h1
  · refine bind_post (fun s => Q s.1) _ _
      (tryRoundField_post Q st _ _ _ _ _ hst (fun v => hFS st hst v)) ?_
    intro s1 _ hq1
    refine bind_post (fun s => Q s.1) _ _ ?_ ?_
    · cases hlh : s1.1.lineHeight with
      | none => exact hq1
      | some uv =>
        cases uv with
        | mk u v =>
          cases u
          · dsimp only []
            split_ifs with hne
            · exact hostTry_post (fun s => Q s.1) s1 _ hq1 (hLH s1 hq1 _)
            · exact hq1
          · dsimp only []
            split_ifs with hne
            · exact hostTry_post (fun s => Q s.1) s1 _ hq1 (hLH s1 hq1 _)
            · exact hq1
          · exact hq1
    · intro s2 _ hq2
      cases hls : s2.1.letterSpacing with
      | none => exact hq2
      | some uv =>
        cases uv with
        | mk u v =>
          cases u
          · dsimp only []
            split_ifs with hne
            · exact hostTry_post (fun s => Q s.1) s2 _ hq2 (hLS s2 hq2 _)
            · exact hq2
          · dsimp only []
            split_ifs with hne
            · exact hostTry_post (fun s => Q s.1) s2 _ hq2 (hLS s2 hq2 _)
            · exact hq2
          · exact hq2
  · exact hst

/-- `stepVector` writes only the `vectorNetwork` field. -/
theorem stepVector_post (Q : NodeData → Prop) (o : RoundingOptions) (st : PSt)
    (hw : ∀ (dd : NodeData) (vn : VectorNetwork), Q dd → Q { dd with vectorNetwork := some vn })
    (hst : Q st.1) : Q (postSt (stepVector o st)).1 := by
  unfold stepVector
  refine ite_post (fun s => Q s.1) _ _ _ (fun h0 => ?_) (fun h0 => hst)
  cases hvn : st.1.vectorNetwork with
  | none => exact hst
  | some vn =>
    dsimp only []
    split_ifs with h1 h2 h3
    · exact hst
    · exact hw st.1 _ hst
    · exact hst
    · exact hst

/-- `stepEffects` writes only the `effects` field. -/
theorem stepEffects_post (Q : NodeData → Prop) (o : RoundingOptions) (st : PSt)
    (hw : ∀ (dd : NodeData) (effs : List Effect), Q dd → Q { dd with effects := some effs })
    (hst : Q st.1) : Q (postSt (stepEffects o st)).1 := by
  unfold stepEffects
  split_ifs with h1
  · cases heffs : st.1.effects with
    | none => exact hst
    | some effs =>
      dsimp only []
      split_ifs with h2
      · exact hostTry_post (fun s => Q s.1) st _ hst (hw st.1 _ hst)
      · exact hst
  · exact hst

/-- `stepCornerRadius` writes only the `cornerRadius` field. -/
theorem stepCornerRadius_post (Q : NodeData → Prop) (rf : ℚ) (o : RoundingOptions) (st : PSt)
    (hw : ∀ (dd : NodeData) (r : ℚ), Q dd → Q { dd with cornerRadius := some r })
    (hst : Q st.1) : Q (postSt (stepCornerRadius rf o st)).1 := by
  unfold stepCornerRadius
  cases hc : st.1.cornerRadius with
  | none => exact hst
  | some r =>
    dsimp only []
    split_ifs with h1 h2 h3
    · exact hostTry_post (fun s => Q s.1) st _ hst (hw st.1 _ hst)
    · exact hostTry_post (fun s => Q s.1) st _ hst (hw st.1 _ hst)
    · exact hst
    · exact hst

/-- `stepCornerRadii` writes only through `setCornerRadiiD`. -/
theorem stepCornerRadii_post (Q : NodeData → Prop) (rf : ℚ) (o : RoundingOptions) (st : PSt)
    (hw : ∀ (dd : NodeData) (a b c e : ℚ), Q dd → Q (setCornerRadiiD dd a b c e))
    (hst : Q st.1) : Q (postSt (stepCornerRadii rf o st)).1 := by
  unfold stepCornerRadii
  cases htl : st.1.topLeftRadius with
  | some tl =>
    dsimp only []
    split_ifs with h1 h2
    · exact hostTry_post (fun s => Q s.1) st _ hst (hw st.1 _ _ _ _ hst)
    · exact hst
    · exact hst
  | none =>
    dsimp only []
    split_ifs with h1 h2 h3
    · exact hostTry_post (fun s => Q s.1) st _ hst (hw st.1 _ _ _ _ hst)
    · exact hst
    · exact hst
    · exact hst

/-- Under a strictly negative fontSize factor, `stepText` leaves `fontSize`
and `letterSpacing` untouched — the lineHeight block may still fire, but it
writes only the `lineHeight` field. -/
theorem stepText_fontPreserve (o : RoundingOptions) (st : PSt)
    (hfs : o.roundingFactorByProperty.fontSize < 0) :
    FontUnchanged st.1 (postSt (stepText o st)).1 := by
  have hfs0 := orElseNum_of_ne o.roundingFactorByProperty.fontSize 1 (ne_of_lt hfs)
  unfold stepText
  split_ifs with h1
  · rw [tryRoundField_nonpos st _ _ _ _ _ (le_of_lt hfs), except_bind_ok]
    refine bind_post (fun s => FontUnchanged st.1 s.1) _ _ ?_ ?_
    · cases hlh : st.1.lineHeight with
      | none => exact ⟨rfl, rfl⟩
      | some uv =>
        cases uv with
        | mk u v =>
          cases u
          · dsimp only []
            split_ifs with hne
            · exact hostTry_post (fun s => FontUnchanged st.1 s.1) st _ ⟨rfl, rfl⟩ ⟨rfl, rfl⟩
            · exact ⟨rfl, rfl⟩
          · dsimp only []
            split_ifs with hne
            · exact hostTry_post (fun s => FontUnchanged st.1 s.1) st _ ⟨rfl, rfl⟩ ⟨rfl, rfl⟩
            · exact ⟨rfl, rfl⟩
          · exact ⟨rfl, rfl⟩
    · intro s2 _ h2
      cases hls : s2.1.letterSpacing with
      | none => exact h2
      | some uv =>
        cases uv with
        | mk u v =>
          cases u
          · dsimp only []
            rw [hfs0, applyRoundingStrategy_nonpos v _ _ (le_of_lt hfs), if_neg (by simp)]
            exact h2
          · dsimp only []
            rw [hfs0, applyRoundingStrategy_nonpos v _ _ (le_of_lt hfs), if_neg (by simp)]
            exact h2
          · exact h2
  · exact ⟨rfl, rfl⟩

/-- Under a strictly negative lineHeight factor, `stepText` leaves
`lineHeight` untouched — the fontSize and letterSpacing blocks may still
fire, but they write only their own fields. -/
theorem stepText_lineHeightPreserve (o : RoundingOptions) (st : PSt)
    (hlh : o.roundingFactorByProperty.lineHeight < 0) :
    LineHeightUnchanged st.1 (postSt (stepText o st)).1 := by
  have hlh0 := orElseNum_of_ne o.roundingFactorByProperty.lineHeight 1 (ne_of_lt hlh)
  unfold stepText
  split_ifs with h1
  · refine bind_post (fun s => LineHeightUnchanged st.1 s.1) _ _
      (tryRoundField_post (fun dd => LineHeightUnchanged st.1 dd) st _ _ _ _ _ rfl
        (fun v => rfl)) ?_
    intro s1 _ hq1
    refine bind_post (fun s => LineHeightUnchanged st.1 s.1) _ _ ?_ ?_
    · cases hv : s1.1.lineHeight with
      | none => exact hq1
      | some uv =>
        cases uv with
        | mk u v =>
          cases u
          · dsimp only []
            rw [hlh0, applyRoundingStrategy_nonpos v _ _ (le_of_lt hlh), if_neg (by simp)]
            exact hq1
          · dsimp only []
            rw [hlh0, applyRoundingStrategy_nonpos v _ _ (le_of_lt hlh), if_neg (by simp)]
            exact hq1
          · exact hq1
    · intro s2 _ hq2
      cases hls : s2.1.letterSpacing with
      | none => exact hq2
      | some uv =>
        cases uv with
        | mk u v =>
          cases u
          · dsimp only []
            split_ifs with hne
            · exact hostTry_post (fun s => LineHeightUnchanged st.1 s.1) s2 _ hq2 hq2
            · exact hq2
          · dsimp only []
            split_ifs with hne
            · exact hostTry_post (fun s => LineHeightUnchanged st.1 s.1) s2 _ hq2 hq2
            · exact hq2
          · exact hq2
  · rfl

/-- Any node invariant preserved by each of the ten property blocks is
preserved by the whole chain, whether it completes or throws. -/
theorem coreSteps_post (Q : NodeData → Prop) (rf : ℚ) (o : RoundingOptions)
    (hX : ∀ s : PSt, Q s.1 → Q (postSt (stepX rf o s)).1)
    (hY : ∀ s : PSt, Q s.1 → Q (postSt (stepY rf o s)).1)
    (hSz : ∀ s : PSt, Q s.1 → Q (postSt (stepSize o s)).1)
    (hSp : ∀ s : PSt, Q s.1 → Q (postSt (stepSpacing o s)).1)
    (hRo : ∀ s : PSt, Q s.1 → Q (postSt (stepRotation rf o s)).1)
    (hTx : ∀ s : PSt, Q s.1 → Q (postSt (stepText o s)).1)
    (hVe : ∀ s : PSt, Q s.1 → Q (postSt (stepVector o s)).1)
    (hEf : ∀ s : PSt, Q s.1 → Q (postSt (stepEffects o s)).1)
    (hCr : ∀ s : PSt, Q s.1 → Q (postSt (stepCornerRadius rf o s)).1)
    (hCi : ∀ s : PSt, Q s.1 → Q (postSt (stepCornerRadii rf o s)).1) :
    ∀ st : PSt, Q st.1 → Q (postSt (coreSteps rf o st)).1 := by
  intro st hst
  unfold coreSteps
  refine bind_post (fun s => Q s.1) _ _ (hX st hst) ?_
  intro s2 _ h2
  refine bind_post (fun s => Q s.1) _ _ (hY s2 h2) ?_
  intro s3 _ h3
  refine bind_post (fun s => Q s.1) _ _ (hSz s3 h3) ?_
  intro s4 _ h4
  refine bind_post (fun s => Q s.1) _ _ (hSp s4 h4) ?_
  intro s5 _ h5
  refine bind_post (fun s => Q s.1) _ _ (hRo s5 h5) ?_
  intro s6 _ h6
  refine bind_post (fun s => Q s.1) _ _ (hTx s6 h6) ?_
  intro s7 _ h7
  refine bind_post (fun s => Q s.1) _ _ (hVe s7 h7) ?_
  intro s8 _ h8
  refine bind_post (fun s => Q s.1) _ _ (hEf s8 h8) ?_
  intro s9 _ h9
  refine bind_post (fun s => Q s.1) _ _ (hCr s9 h9) ?_
  intro s10 _ h10
  exact hCi s10 h10

/-- Any node invariant preserved by each property block is preserved by
`processNodeProperties` — including through the outer catch, which keeps the
state accumulated before the throw. -/
theorem processNodeProperties_post (Q : NodeData → Prop) (rf : ℚ) (o : RoundingOptions)
    (d : NodeData) (stats : RoundingStats)
    (hX : ∀ s : PSt, Q s.1 → Q (postSt (stepX rf o s)).1)
    (hY : ∀ s : PSt, Q s.1 → Q (postSt (stepY rf o s)).1)
    (hSz : ∀ s : PSt, Q s.1 → Q (postSt (stepSize o s)).1)
    (hSp : ∀ s : PSt, Q s.1 → Q (postSt (stepSpacing o s)).1)
    (hRo : ∀ s : PSt, Q s.1 → Q (postSt (stepRotation rf o s)).1)
    (hTx : ∀ s : PSt, Q s.1 → Q (postSt (stepText o s)).1)
    (hVe : ∀ s : PSt, Q s.1 → Q (postSt (stepVector o s)).1)
    (hEf : ∀ s : PSt, Q s.1 → Q (postSt (stepEffects o s)).1)
    (hCr : ∀ s : PSt, Q s.1 → Q (postSt (stepCornerRadius rf o s)).1)
    (hCi : ∀ s : PSt, Q s.1 → Q (postSt (stepCornerRadii rf o s)).1)
    (hd : Q d) : Q (processNodeProperties rf o d stats).1 := by
  unfold processNodeProperties
  split_ifs with hig
  · exact hd
  · have hc : Q (postSt (processCore rf o (d, stats))).1 :=
      coreSteps_post Q rf o hX hY hSz hSp hRo hTx hVe hEf hCr hCi
        (d, { stats with nodesProcessed := stats.nodesProcessed + 1 }) hd
    cases he : processCore rf o (d, stats) with
    | ok s =>
      rw [he] at hc
      exact hc
    | error s =>
      rw [he] at hc
      exact hc

/-- C5 (amended): each property group is governed by its own factor,
independently of every other factor.  Per group, a strictly negative
configured factor is a complete identity for that group in both engines:
the group's apply blocks return their input state unchanged (never
throwing, never substituting another factor), the group's node fields
survive the entire `processNodeProperties` chain untouched even when the
other blocks fire or throw, and the group's preview stage pushes nothing.
For the vectors group the node's segments must reference valid vertex
indices — the network rebuild drops invalid segments even when rounding is
the identity — and the preview has no vector stage at all.  A factor of
exactly `0` is *not* always identity: the `|| fallback` reads substitute
`1` (lineHeight, letterSpacing) or the legacy factor (cornerRadius); see
the counterexample. -/
theorem c5_negativeFactor_perGroup (rf : ℚ) (o : RoundingOptions) (d : NodeData)
    (stats : RoundingStats) (st : PrevSt) :
    (o.roundingFactorByProperty.dimensions ≤ 0 →
      (∀ s : PSt, stepSize o s = Except.ok s) ∧
      (∀ s : PSt, stepSpacing o s = Except.ok s) ∧
      DimsUnchanged d (processNodeProperties rf o d stats).1 ∧
      previewSize o d st = st) ∧
    (o.roundingFactorByProperty.fontSize < 0 →
      FontUnchanged d (processNodeProperties rf o d stats).1 ∧
      previewFontSize o d st = st ∧
      previewLetterSpacing o d st = st) ∧
    (o.roundingFactorByProperty.lineHeight < 0 →
      LineHeightUnchanged d (processNodeProperties rf o d stats).1 ∧
      previewLineHeight o d st = st) ∧
    (o.roundingFactorByProperty.effects ≤ 0 →
      (∀ s : PSt, stepEffects o s = Except.ok s) ∧
      EffectsUnchanged d (processNodeProperties rf o d stats).1 ∧
      previewEffects o d st = st) ∧
    (o.roundingFactorByProperty.vectors ≤ 0 → vnOk d.vectorNetwork →
      (∀ s : PSt, vnOk s.1.vectorNetwork → stepVector o s = Except.ok s) ∧
      VectorUnchanged d (processNodeProperties rf o d stats).1) ∧
    (o.roundingFactorByProperty.cornerRadius < 0 →
      (∀ s : PSt, stepCornerRadius rf o s = Except.ok s) ∧
      (∀ s : PSt, stepCornerRadii rf o s = Except.ok s) ∧
      CornerUnchanged d (processNodeProperties rf o d stats).1 ∧
      previewCorner rf o d st = st ∧
      previewCornerIndividual rf o d st = st) := by
  refine ⟨fun hdims => ?_, fun hfs => ?_, fun hlh => ?_, fun heff => ?_,
    fun hvec hwf => ?_, fun hcr => ?_⟩
  · refine ⟨fun s => stepSize_id o s hdims, fun s => stepSpacing_id o s hdims, ?_,
      previewSize_id o d st hdims⟩
    refine processNodeProperties_post (fun e => DimsUnchanged d e) rf o d stats
      (fun s hs => stepX_post _ rf o s (fun dd v hq => hq) hs)
      (fun s hs => stepY_post _ rf o s (fun dd v hq => hq) hs)
      (fun s hs => by rw [stepSize_id o s hdims]; exact hs)
      (fun s hs => by rw [stepSpacing_id o s hdims]; exact hs)
      (fun s hs => stepRotation_post _ rf o s (fun dd v hq => hq) hs)
      (fun s hs => stepText_post _ o s (fun dd a b c hq => hq) hs)
      (fun s hs => stepVector_post _ o s (fun dd vn hq => hq) hs)
      (fun s hs => stepEffects_post _ o s (fun dd f hq => hq) hs)
      (fun s hs => stepCornerRadius_post _ rf o s (fun dd r hq => hq) hs)
      (fun s hs => stepCornerRadii_post _ rf o s (fun dd a b c f hq => hq) hs)
      ⟨rfl, rfl, rfl, rfl, rfl, rfl, rfl⟩
  · refine ⟨?_, previewFontSize_id o d st (le_of_lt hfs), previewLetterSpacing_id o d st hfs⟩
    refine processNodeProperties_post (fun e => FontUnchanged d e) rf o d stats
      (fun s hs => stepX_post _ rf o s (fun dd v hq => hq) hs)
      (fun s hs => stepY_post _ rf o s (fun dd v hq => hq) hs)
      (fun s hs => stepSize_post _ o s (fun dd a b hq => hq) hs)
      (fun s hs => stepSpacing_post _ o s (fun dd a b c f g hq => hq) hs)
      (fun s hs => stepRotation_post _ rf o s (fun dd v hq => hq) hs)
      (fun s hs => ?_)
      (fun s hs => stepVector_post _ o s (fun dd vn hq => hq) hs)
      (fun s hs => stepEffects_post _ o s (fun dd f hq => hq) hs)
      (fun s hs => stepCornerRadius_post _ rf o s (fun dd r hq => hq) hs)
      (fun s hs => stepCornerRadii_post _ rf o s (fun dd a b c f hq => hq) hs)
      ⟨rfl, rfl⟩
    have h2 := stepText_fontPreserve o s hfs
    exact ⟨h2.1.trans hs.1, h2.2.trans hs.2⟩
  · refine ⟨?_, previewLineHeight_id o d st hlh⟩
    refine processNodeProperties_post (fun e => LineHeightUnchanged d e) rf o d stats
      (fun s hs => stepX_post _ rf o s (fun dd v hq => hq) hs)
      (fun s hs => stepY_post _ rf o s (fun dd v hq => hq) hs)
      (fun s hs => stepSize_post _ o s (fun dd a b hq => hq) hs)
      (fun s hs => stepSpacing_post _ o s (fun dd a b c f g hq => hq) hs)
      (fun s hs => stepRotation_post _ rf o s (fun dd v hq => hq) hs)
      (fun s hs => (stepText_lineHeightPreserve o s hlh).trans hs)
      (fun s hs => stepVector_post _ o s (fun dd vn hq => hq) hs)
      (fun s hs => stepEffects_post _ o s (fun dd f hq => hq) hs)
      (fun s hs => stepCornerRadius_post _ rf o s (fun dd r hq => hq) hs)
      (fun s hs => stepCornerRadii_post _ rf o s (fun dd a b c f hq => hq) hs)
      rfl
  · refine ⟨fun s => stepEffects_id o s heff, ?_, previewEffects_id o d st heff⟩
    refine processNodeProperties_post (fun e => EffectsUnchanged d e) rf o d stats
      (fun s hs => stepX_post _ rf o s (fun dd v hq => hq) hs)
      (fun s hs => stepY_post _ rf o s (fun dd v hq => hq) hs)
      (fun s hs => stepSize_post _ o s (fun dd a b hq => hq) hs)
      (fun s hs => stepSpacing_post _ o s (fun dd a b c f g hq => hq) hs)
      (fun s hs => stepRotation_post _ rf o s (fun dd v hq => hq) hs)
      (fun s hs => stepText_post _ o s (fun dd a b c hq => hq) hs)
      (fun s hs => stepVector_post _ o s (fun dd vn hq => hq) hs)
      (fun s hs => by rw [stepEffects_id o s heff]; exact hs)
      (fun s hs => stepCornerRadius_post _ rf o s (fun dd r hq => hq) hs)
      (fun s hs => stepCornerRadii_post _ rf o s (fun dd a b c f hq => hq) hs)
      rfl
  · refine ⟨fun s hsv => stepVector_id o s hvec hsv, ?_⟩
    refine processNodeProperties_post (fun e => VectorUnchanged d e) rf o d stats
      (fun s hs => stepX_post _ rf o s (fun dd v hq => hq) hs)
      (fun s hs => stepY_post _ rf o s (fun dd v hq => hq) hs)
      (fun s hs => stepSize_post _ o s (fun dd a b hq => hq) hs)
      (fun s hs => stepSpacing_post _ o s (fun dd a b c f g hq => hq) hs)
      (fun s hs => stepRotation_post _ rf o s (fun dd v hq => hq) hs)
      (fun s hs => stepText_post _ o s (fun dd a b c hq => hq) hs)
      (fun s hs => ?_)
      (fun s hs => stepEffects_post _ o s (fun dd f hq => hq) hs)
      (fun s hs => stepCornerRadius_post _ rf o s (fun dd r hq => hq) hs)
      (fun s hs => stepCornerRadii_post _ rf o s (fun dd a b c f hq => hq) hs)
      rfl
    have hs' : s.1.vectorNetwork = d.vectorNetwork := hs
    rw [stepVector_id o s hvec (by rw [hs']; exact hwf)]
    exact hs
  · refine ⟨fun s => stepCornerRadius_id rf o s hcr, fun s => stepCornerRadii_id rf o s hcr,
      ?_, previewCorner_id rf o d st hcr, previewCornerIndividual_id rf o d st hcr⟩
    refine processNodeProperties_post (fun e => CornerUnchanged d e) rf o d stats
      (fun s hs => stepX_post _ rf o s (fun dd v hq => hq) hs)
      (fun s hs => stepY_post _ rf o s (fun dd v hq => hq) hs)
      (fun s hs => stepSize_post _ o s (fun dd a b hq => hq) hs)
      (fun s hs => stepSpacing_post _ o s (fun dd a b c f g hq => hq) hs)
      (fun s hs => stepRotation_post _ rf o s (fun dd v hq => hq) hs)
      (fun s hs => stepText_post _ o s (fun dd a b c hq => hq) hs)
      (fun s hs => stepVector_post _ o s (fun dd vn hq => hq) hs)
      (fun s hs => stepEffects_post _ o s (fun dd f hq => hq) hs)
      (fun s hs => by rw [stepCornerRadius_id rf o s hcr]; exact hs)
      (fun s hs => by rw [stepCornerRadii_id rf o s hcr]; exact hs)
      ⟨rfl, rfl, rfl, rfl, rfl⟩

/-- Witness for C5 (amended): all six group conclusions at a concrete node,
strictly negative factors and the empty preview state. -/
theorem c5_negativeFactor_perGroup_witness :
    ((∀ s : PSt, stepSize c5NegOptions s = Except.ok s) ∧
     (∀ s : PSt, stepSpacing c5NegOptions s = Except.ok s) ∧
     DimsUnchanged c5WitnessData (processNodeProperties 1 c5NegOptions c5WitnessData initStats).1 ∧
     previewSize c5NegOptions c5WitnessData emptyPrev = emptyPrev) ∧
    (FontUnchanged c5WitnessData (processNodeProperties 1 c5NegOptions c5WitnessData initStats).1 ∧
     previewFontSize c5NegOptions c5WitnessData emptyPrev = emptyPrev ∧
     previewLetterSpacing c5NegOptions c5WitnessData emptyPrev = emptyPrev) ∧
    (LineHeightUnchanged c5WitnessData (processNodeProperties 1 c5NegOptions c5WitnessData initStats).1 ∧
     previewLineHeight c5NegOptions c5WitnessData emptyPrev = emptyPrev) ∧
    ((∀ s : PSt, stepEffects c5NegOptions s = Except.ok s) ∧
     EffectsUnchanged c5WitnessData (processNodeProperties 1 c5NegOptions c5WitnessData initStats).1 ∧
     previewEffects c5NegOptions c5WitnessData emptyPrev = emptyPrev) ∧
    ((∀ s : PSt, vnOk s.1.vectorNetwork → stepVector c5NegOptions s = Except.ok s) ∧
     VectorUnchanged c5WitnessData (processNodeProperties 1 c5NegOptions c5WitnessData initStats).1) ∧
    ((∀ s : PSt, stepCornerRadius 1 c5NegOptions s = Except.ok s) ∧
     (∀ s : PSt, stepCornerRadii 1 c5NegOptions s = Except.ok s) ∧
     CornerUnchanged c5WitnessData (processNodeProperties 1 c5NegOptions c5WitnessData initStats).1 ∧
     previewCorner 1 c5NegOptions c5WitnessData emptyPrev = emptyPrev ∧
     previewCornerIndividual 1 c5NegOptions c5WitnessData emptyPrev = emptyPrev) := by
  have h := c5_negativeFactor_perGroup 1 c5NegOptions c5WitnessData initStats emptyPrev
  exact ⟨h.1 (by norm_num [c5NegOptions, DEFAULT_OPTIONS]),
    h.2.1 (by norm_num [c5NegOptions, DEFAULT_OPTIONS]),
    h.2.2.1 (by norm_num [c5NegOptions, DEFAULT_OPTIONS]),
    h.2.2.2.1 (by norm_num [c5NegOptions, DEFAULT_OPTIONS]),
    h.2.2.2.2.1 (by norm_num [c5NegOptions, DEFAULT_OPTIONS])
      (by simp [c5WitnessData, blankData, vnOk]),
    h.2.2.2.2.2 (by norm_num [c5NegOptions, DEFAULT_OPTIONS])⟩

/-- Generic preservation of a walk-state invariant, by strong induction on
the size of the subtree: if `P` is preserved by the visit update of any
unblocked node whose data lies in `D`, then `P` is preserved by the whole
traversal over scene nodes whose data all lie in `D`. -/
theorem traverse_preserve (rf : ℚ) (o : RoundingOptions) (D : List NodeData)
    (P : WalkSt → Prop)
    (hstep : ∀ d st, d ∈ D →
      (st.processed.contains d.id || st.excluded.contains d.id) = false →
      P st → P (visitUpdate rf o d st)) :
    ∀ k : ℕ,
      (∀ n : SceneNode, sizeOf n ≤ k →
        (∀ e ∈ (flattenOne n).map SceneNode.data, e ∈ D) →
        ∀ st, P st → P (traverseChildren rf o n st)) ∧
      (∀ ns : List SceneNode, sizeOf ns ≤ k →
        (∀ e ∈ (flattenList ns).map SceneNode.data, e ∈ D) →
        ∀ st, P st → P (traverseNodes rf o ns st)) := by
  intro k
  induction k with
  | zero =>
    constructor
    · intro n hn
      exfalso
      cases n with
      | node d kids => simp at hn
    · intro ns hn
      exfalso
      cases ns with
      | nil => simp at hn
      | cons m ms => simp at hn
  | succ k ih =>
    constructor
    · intro n hn hD st hP
      cases n with
      | node d kids =>
        rw [traverseChildren]
        by_cases hb : (st.processed.contains d.id || st.excluded.contains d.id) = true
        · rw [if_pos hb]
          exact hP
        · rw [if_neg hb]
          have hdD : d ∈ D := by
            apply hD
            rw [flattenOne]
            simp [SceneNode.data]
          have hP1 : P (visitUpdate rf o d st) :=
            hstep d st hdD (by simpa using hb) hP
          have hkids : sizeOf kids ≤ k := by
            simp at hn; omega
          have hkD : ∀ e ∈ (flattenList kids).map SceneNode.data, e ∈ D := by
            intro e he
            apply hD
            rw [flattenOne]
            simp only [List.map_cons, List.mem_cons]
            exact Or.inr he
          cases d.hasChildren
          · simpa using hP1
          · by_cases hinst : d.type = NodeType.INSTANCE
            · simp only [hinst, if_pos rfl, if_true]
              simpa using hP1
            · simp only [if_neg hinst, if_true]
              simpa using (ih.2 kids hkids hkD _ hP1)
    · intro ns hn hD st hP
      cases ns with
      | nil =>
        rw [traverseNodes]
        exact hP
      | cons m ms =>
        rw [traverseNodes]
        have hm : sizeOf m ≤ k := by simp at hn; omega
        have hms : sizeOf ms ≤ k := by simp at hn; omega
        have hmD : ∀ e ∈ (flattenOne m).map SceneNode.data, e ∈ D := by
          intro e he
          apply hD
          rw [flattenList]
          simp only [List.map_append, List.mem_append]
          exact Or.inl he
        have hmsD : ∀ e ∈ (flattenList ms).map SceneNode.data, e ∈ D := by
          intro e he
          apply hD
          rw [flattenList]
          simp only [List.map_append, List.mem_append]
          exact Or.inr he
        exact ih.2 ms hms hmsD _ (ih.1 m hm hmD st hP)

/-- Invariant preservation for a single subtree, for invariants that do not
depend on which nodes are in the scene. -/
theorem traverseChildren_preserve (rf : ℚ) (o : RoundingOptions) (P : WalkSt → Prop)
    (hstep : ∀ d st,
      (st.processed.contains d.id || st.excluded.contains d.id) = false →
      P st → P (visitUpdate rf o d st))
    (n : SceneNode) (st : WalkSt) (h : P st) : P (traverseChildren rf o n st) :=
  (traverse_preserve rf o ((flattenOne n).map SceneNode.data) P
      (fun d st _ hb hP => hstep d st hb hP) (sizeOf n)).1 n le_rfl
    (fun _ he => he) st h

/-- Invariant preservation for a whole node list. -/
theorem traverseNodes_preserve (rf : ℚ) (o : RoundingOptions) (P : WalkSt → Prop)
    (hstep : ∀ d st,
      (st.processed.contains d.id || st.excluded.contains d.id) = false →
      P st → P (visitUpdate rf o d st))
    (ns : List SceneNode) (st : WalkSt) (h : P st) : P (traverseNodes rf o ns st) :=
  (traverse_preserve rf o ((flattenList ns).map SceneNode.data) P
      (fun d st _ hb hP => hstep d st hb hP) (sizeOf ns)).2 ns le_rfl
    (fun _ he => he) st h

/-- C7 (amended): a node id in the caller-supplied exclusion set is never
processed by either apply walk — it is never added to the visited set and no
mutation log entry carries its id, hence it contributes no property change
and no stats update (in particular `nodesProcessed`, which only ever grows
inside `processNodeProperties`, is not incremented for it).  The preview
walk, by contrast, receives no exclusion set at all (see the
counterexample). -/
theorem c7_apply_excluded (rf : ℚ) (o : RoundingOptions) (stats : RoundingStats)
    (excl : List ℕ) (page selection : List SceneNode) (e : ℕ) (he : e ∈ excl) :
    (e ∉ (roundPixels rf o stats excl page).processed ∧
      ∀ p ∈ (roundPixels rf o stats excl page).out, p.1 ≠ e) ∧
    (e ∉ (selectAndRoundType rf o stats excl selection).processed ∧
      ∀ p ∈ (selectAndRoundType rf o stats excl selection).out, p.1 ≠ e) := by
  have hstep : ∀ d st,
      (st.processed.contains d.id || st.excluded.contains d.id) = false →
      (st.excluded = excl ∧ e ∉ st.processed ∧ ∀ p ∈ st.out, p.1 ≠ e) →
      ((visitUpdate rf o d st).excluded = excl ∧
        e ∉ (visitUpdate rf o d st).processed ∧
        ∀ p ∈ (visitUpdate rf o d st).out, p.1 ≠ e) := by
    intro d st hb hP
    obtain ⟨hE, hp, ho⟩ := hP
    have hne : d.id ≠ e := by
      intro hcontra
      have : st.excluded.contains d.id = false := by
        rcases Bool.or_eq_false_iff.mp hb with ⟨_, h2⟩
        exact h2
      rw [hE, hcontra] at this
      have : e ∉ excl := by simpa using this
      exact this he
    refine ⟨hE, ?_, ?_⟩
    · unfold visitUpdate
      simp only [List.mem_append, List.mem_singleton]
      rintro (h | h)
      · exact hp h
      · exact hne h.symm
    · unfold visitUpdate
      intro p hp2
      simp only [List.mem_append, List.mem_singleton] at hp2
      rcases hp2 with h | h
      · exact ho p h
      · rw [h]
        exact hne
  constructor
  · have := traverseNodes_preserve rf o
      (fun st => st.excluded = excl ∧ e ∉ st.processed ∧ ∀ p ∈ st.out, p.1 ≠ e)
      hstep (flattenList page)
      { processed := [], excluded := excl, stats := stats, out := [] }
      ⟨rfl, by simp, by simp⟩
    exact ⟨this.2.1, this.2.2⟩
  · have := traverseNodes_preserve rf o
      (fun st => st.excluded = excl ∧ e ∉ st.processed ∧ ∀ p ∈ st.out, p.1 ≠ e)
      hstep selection
      { processed := [], excluded := excl, stats := stats, out := [] }
      ⟨rfl, by simp, by simp⟩
    exact ⟨this.2.1, this.2.2⟩

/-- Witness for C7 (amended) at the concrete excluded rectangle. -/
theorem c7_apply_excluded_witness :
    (1 ∉ (roundPixels 1 DEFAULT_OPTIONS initStats [1] [SceneNode.node c7RectData []]).processed ∧
      ∀ p ∈ (roundPixels 1 DEFAULT_OPTIONS initStats [1] [SceneNode.node c7RectData []]).out, p.1 ≠ 1) ∧
    (1 ∉ (selectAndRoundType 1 DEFAULT_OPTIONS initStats [1] [SceneNode.node c7RectData []]).processed ∧
      ∀ p ∈ (selectAndRoundType 1 DEFAULT_OPTIONS initStats [1] [SceneNode.node c7RectData []]).out, p.1 ≠ 1) :=
  c7_apply_excluded 1 DEFAULT_OPTIONS initStats [1] [SceneNode.node c7RectData []]
    [SceneNode.node c7RectData []] 1 (by simp)

theorem pushPreview_hostWrites (st : PrevSt) (i : ℕ) (c : PropChange) :
    (pushPreview st i c).hostWrites = st.hostWrites := rfl

theorem previewXY_hostWrites (rf : ℚ) (o : RoundingOptions) (d : NodeData) (st : PrevSt) :
    (previewXY rf o d st).hostWrites = st.hostWrites := by
  unfold previewXY pushPreview
  cases d.x <;> cases d.y <;> dsimp only [] <;> split_ifs <;> rfl

theorem previewSize_hostWrites (o : RoundingOptions) (d : NodeData) (st : PrevSt) :
    (previewSize o d st).hostWrites = st.hostWrites := by
  unfold previewSize pushPreview
  cases d.width <;> cases d.height <;> dsimp only [] <;> split_ifs <;> rfl

theorem previewText_hostWrites (o : RoundingOptions) (d : NodeData) (st : PrevSt) :
    (previewText o d st).hostWrites = st.hostWrites := by
  unfold previewText pushPreview
  split_ifs with h1
  · rfl
  · rcases d.fontSize with _ | fs <;>
    rcases d.lineHeight with _ | ⟨u1, v1⟩ <;>
    rcases d.letterSpacing with _ | ⟨u2, v2⟩
    · rfl
    · cases u2 <;> dsimp only [] <;> split_ifs <;> rfl
    · cases u1 <;> dsimp only [] <;> split_ifs <;> rfl
    · cases u1 <;> cases u2 <;> dsimp only [] <;> split_ifs <;> rfl
    · dsimp only [] <;> split_ifs <;> rfl
    · cases u2 <;> dsimp only [] <;> split_ifs <;> rfl
    · cases u1 <;> dsimp only [] <;> split_ifs <;> rfl
    · cases u1 <;> cases u2 <;> dsimp only [] <;> split_ifs <;> rfl

theorem foldl_hostWrites {α : Type} (g : PrevSt → α → PrevSt)
    (h : ∀ st a, (g st a).hostWrites = st.hostWrites) (l : List α) :
    ∀ st : PrevSt, (l.foldl g st).hostWrites = st.hostWrites := by
  induction l with
  | nil => intro st; rfl
  | cons a as ih => intro st; rw [List.foldl_cons, ih, h]

theorem previewEffects_hostWrites (o : RoundingOptions) (d : NodeData) (st : PrevSt) :
    (previewEffects o d st).hostWrites = st.hostWrites := by
  unfold previewEffects
  split_ifs with h1
  · cases heffs : d.effects with
    | none => rfl
    | some effs =>
      dsimp only []
      apply foldl_hostWrites
      intro acc p
      cases p.2.radius <;> dsimp only [] <;> split_ifs <;> rfl
  · rfl

theorem previewCorner_hostWrites (rf : ℚ) (o : RoundingOptions) (d : NodeData) (st : PrevSt) :
    (previewCorner rf o d st).hostWrites = st.hostWrites := by
  unfold previewCorner pushPreview
  cases d.cornerRadius <;> dsimp only [] <;> split_ifs <;> rfl

theorem previewCornerIndividual_hostWrites (rf : ℚ) (o : RoundingOptions) (d : NodeData) (st : PrevSt) :
    (previewCornerIndividual rf o d st).hostWrites = st.hostWrites := by
  unfold previewCornerIndividual pushPreview
  cases d.topLeftRadius <;> cases d.topRightRadius <;>
    cases d.bottomLeftRadius <;> cases d.bottomRightRadius <;>
    dsimp only [] <;> split_ifs <;> rfl

theorem previewVisit_hostWrites (rf : ℚ) (o : RoundingOptions) (d : NodeData) (st : PrevSt) :
    (previewVisit rf o d st).hostWrites = st.hostWrites := by
  unfold previewVisit
  rw [previewCornerIndividual_hostWrites, previewCorner_hostWrites,
    previewEffects_hostWrites, previewText_hostWrites,
    previewSize_hostWrites, previewXY_hostWrites]

theorem previewNode_hostWrites_aux (rf : ℚ) (o : RoundingOptions) :
    ∀ k : ℕ,
      (∀ n : SceneNode, sizeOf n ≤ k →
        ∀ st, (previewNode rf o n st).hostWrites = st.hostWrites) ∧
      (∀ ns : List SceneNode, sizeOf ns ≤ k →
        ∀ st, (previewNodes rf o ns st).hostWrites = st.hostWrites) := by
  intro k
  induction k with
  | zero =>
    constructor
    · intro n hn
      exfalso
      cases n with
      | node d kids => simp at hn
    · intro ns hn
      exfalso
      cases ns with
      | nil => simp at hn
      | cons m ms => simp at hn
  | succ k ih =>
    constructor
    · intro n hn st
      cases n with
      | node d kids =>
        have hkids : sizeOf kids ≤ k := by simp at hn; omega
        rw [previewNode]
        split_ifs with h1 h2 h3
        · rfl
        · rfl
        · rw [ih.2 kids hkids, previewVisit_hostWrites]
        · rw [previewVisit_hostWrites]
    · intro ns hn st
      cases ns with
      | nil => rfl
      | cons m ms =>
        rw [previewNodes]
        have hm : sizeOf m ≤ k := by simp at hn; omega
        have hms : sizeOf ms ≤ k := by simp at hn; omega
        rw [ih.2 ms hms, ih.1 m hm]

/-- C8: a preview run is read-only — it invokes no mutating host operation,
so its host-mutation log is empty for every configuration, page and
selection, in both document and selection mode.  (The apply walk records
every processed node in the same log; the preview translation of
`previewRoundingChanges` contains no setter call, and this theorem
propagates that fact through the whole walk.) -/
theorem c8_preview_readonly (rf : ℚ) (o : RoundingOptions) (page selection : List SceneNode)
    (selectionOnly : Bool) :
    (previewRoundingChanges rf o page selection selectionOnly).hostWrites = [] := by
  unfold previewRoundingChanges
  cases selectionOnly
  · simpa using (previewNode_hostWrites_aux rf o (sizeOf (flattenList page))).2
      (flattenList page) le_rfl ⟨⟨0, [], 0⟩, []⟩
  · simpa using (previewNode_hostWrites_aux rf o (sizeOf selection)).2
      selection le_rfl ⟨⟨0, [], 0⟩, []⟩

theorem noThrow_ok (st : PSt) (h : st.1.mutationThrows = false) :
    NoThrowStep (Except.ok st) st := ⟨st, rfl, h, rfl, rfl⟩

theorem noThrow_bind {e : Except PSt PSt} {f : PSt → Except PSt PSt} {st : PSt}
    (he : NoThrowStep e st)
    (hf : ∀ s, s.1.mutationThrows = false → NoThrowStep (f s) s) :
    NoThrowStep (e >>= f) st := by
  obtain ⟨s1, h1, hfl, herr, hskip⟩ := he
  rw [h1, except_bind_ok]
  obtain ⟨s2, h2, hfl2, herr2, hskip2⟩ := hf s1 hfl
  exact ⟨s2, h2, hfl2, herr2.trans herr, hskip2.trans hskip⟩

theorem noThrow_ite (c : Prop) [Decidable c] (e1 e2 : Except PSt PSt) (st : PSt)
    (h1 : c → NoThrowStep e1 st) (h2 : ¬c → NoThrowStep e2 st) :
    NoThrowStep (if c then e1 else e2) st := by
  split_ifs with hc
  · exact h1 hc
  · exact h2 hc

theorem hostTry_noThrow (st : PSt) (upd : PSt → PSt)
    (h : st.1.mutationThrows = false)
    (hupd : (upd st).1.mutationThrows = st.1.mutationThrows)
    (herr : (upd st).2.errorCount = st.2.errorCount)
    (hskip : (upd st).2.instancesSkipped = st.2.instancesSkipped) :
    NoThrowStep (hostTry st upd) st := by
  unfold hostTry
  rw [if_neg (by simp [h])]
  exact ⟨upd st, rfl, by rw [hupd, h], herr, hskip⟩

theorem tryRoundField_noThrow (st : PSt) (read : NodeData → Option ℚ) (f : ℚ)
    (strat : RoundingStrategy) (write : NodeData → ℚ → NodeData) (nm : String)
    (hw : ∀ d v, (write d v).mutationThrows = d.mutationThrows)
    (h : st.1.mutationThrows = false) :
    NoThrowStep (tryRoundField st read f strat write nm) st := by
  unfold tryRoundField
  cases read st.1 with
  | none => exact noThrow_ok st h
  | some v =>
    dsimp only []
    split_ifs with hne
    · exact hostTry_noThrow st _ h (hw _ _) rfl rfl
    · exact noThrow_ok st h

theorem stepX_noThrow (rf : ℚ) (o : RoundingOptions) (st : PSt)
    (h : st.1.mutationThrows = false) : NoThrowStep (stepX rf o st) st :=
  tryRoundField_noThrow st _ _ _ _ _ (fun _ _ => rfl) h

theorem stepY_noThrow (rf : ℚ) (o : RoundingOptions) (st : PSt)
    (h : st.1.mutationThrows = false) : NoThrowStep (stepY rf o st) st :=
  tryRoundField_noThrow st _ _ _ _ _ (fun _ _ => rfl) h

theorem stepRotation_noThrow (rf : ℚ) (o : RoundingOptions) (st : PSt)
    (h : st.1.mutationThrows = false) : NoThrowStep (stepRotation rf o st) st :=
  tryRoundField_noThrow st _ _ _ _ _ (fun _ _ => rfl) h

theorem stepSize_noThrow (o : RoundingOptions) (st : PSt)
    (h : st.1.mutationThrows = false) : NoThrowStep (stepSize o st) st := by
  unfold stepSize
  cases st.1.width <;> cases st.1.height
  · exact noThrow_ok st h
  · exact noThrow_ok st h
  · exact noThrow_ok st h
  · dsimp only []
    refine noThrow_ite _ _ _ _ ?_ (fun _ => noThrow_ok st h)
    intro hr
    refine noThrow_ite _ _ _ _ ?_ ?_
    · intro ht
      refine noThrow_bind
        (noThrow_ite _ _ _ _
          (fun _ => tryRoundField_noThrow st _ _ _ _ _ (fun _ _ => rfl) h)
          (fun _ => noThrow_ok st h)) ?_
      intro s hs
      exact noThrow_ite _ _ _ _
        (fun _ => tryRoundField_noThrow s _ _ _ _ _ (fun _ _ => rfl) hs)
        (fun _ => noThrow_ok s hs)
    · intro ht
      refine noThrow_ite _ _ _ _ ?_ ?_
      · intro hal
        refine noThrow_bind
          (noThrow_ite _ _ _ _
            (fun _ => tryRoundField_noThrow st _ _ _ _ _ (fun _ _ => rfl) h)
            (fun _ => noThrow_ok st h)) ?_
        intro s2 hs2
        refine noThrow_bind
          (noThrow_ite _ _ _ _
            (fun _ => tryRoundField_noThrow s2 _ _ _ _ _ (fun _ _ => rfl) hs2)
            (fun _ => noThrow_ok s2 hs2)) ?_
        intro s3 hs3
        refine noThrow_bind
          (noThrow_ite _ _ _ _
            (fun _ => tryRoundField_noThrow s3 _ _ _ _ _ (fun _ _ => rfl) hs3)
            (fun _ => noThrow_ok s3 hs3)) ?_
        intro s4 hs4
        exact noThrow_ite _ _ _ _
          (fun _ => tryRoundField_noThrow s4 _ _ _ _ _ (fun _ _ => rfl) hs4)
          (fun _ => noThrow_ok s4 hs4)
      · intro hal
        exact noThrow_ite _ _ _ _
          (fun _ => hostTry_noThrow st _ h rfl rfl rfl)
          (fun _ => noThrow_ok st h)

theorem stepSpacing_noThrow (o : RoundingOptions) (st : PSt)
    (h : st.1.mutationThrows = false) : NoThrowStep (stepSpacing o st) st := by
  unfold stepSpacing
  refine noThrow_ite _ _ _ _ ?_ (fun _ => noThrow_ok st h)
  intro hal
  refine noThrow_bind ?_ ?_
  · cases st.1.paddingLeft with
    | none =>
      refine noThrow_bind
        (tryRoundField_noThrow st _ _ _ _ _ (fun _ _ => rfl) h) ?_
      intro s2 hs2
      refine noThrow_bind
        (tryRoundField_noThrow s2 _ _ _ _ _ (fun _ _ => rfl) hs2) ?_
      intro s3 hs3
      exact tryRoundField_noThrow s3 _ _ _ _ _ (fun _ _ => rfl) hs3
    | some pl =>
      dsimp only []
      refine noThrow_ite _ _ _ _ ?_ ?_
      · intro hc
        exact noThrow_ite _ _ _ _
          (fun _ => hostTry_noThrow st _ h rfl rfl rfl)
          (fun _ => noThrow_ok st h)
      · intro hc
        refine noThrow_bind
          (tryRoundField_noThrow st _ _ _ _ _ (fun _ _ => rfl) h) ?_
        intro s2 hs2
        refine noThrow_bind
          (tryRoundField_noThrow s2 _ _ _ _ _ (fun _ _ => rfl) hs2) ?_
        intro s3 hs3
        refine noThrow_bind
          (tryRoundField_noThrow s3 _ _ _ _ _ (fun _ _ => rfl) hs3) ?_
        intro s4 hs4
        exact tryRoundField_noThrow s4 _ _ _ _ _ (fun _ _ => rfl) hs4
  · intro s hs
    exact tryRoundField_noThrow s _ _ _ _ _ (fun _ _ => rfl) hs

theorem stepText_noThrow (o : RoundingOptions) (st : PSt)
    (h : st.1.mutationThrows = false) : NoThrowStep (stepText o st) st := by
  unfold stepText
  refine noThrow_ite _ _ _ _ ?_ (fun _ => noThrow_ok st h)
  intro ht
  refine noThrow_bind (tryRoundField_noThrow st _ _ _ _ _ (fun _ _ => rfl) h) ?_
  intro s2 hs2
  refine noThrow_bind ?_ ?_
  · cases s2.1.lineHeight with
    | none => exact noThrow_ok s2 hs2
    | some uv =>
      cases uv with
      | mk u v =>
        cases u
        · exact noThrow_ite _ _ _ _
            (fun _ => hostTry_noThrow s2 _ hs2 rfl rfl rfl)
            (fun _ => noThrow_ok s2 hs2)
        · exact noThrow_ite _ _ _ _
            (fun _ => hostTry_noThrow s2 _ hs2 rfl rfl rfl)
            (fun _ => noThrow_ok s2 hs2)
        · exact noThrow_ok s2 hs2
  · intro s3 hs3
    cases s3.1.letterSpacing with
    | none => exact noThrow_ok s3 hs3
    | some uv =>
      cases uv with
      | mk u v =>
        cases u
        · exact noThrow_ite _ _ _ _
            (fun _ => hostTry_noThrow s3 _ hs3 rfl rfl rfl)
            (fun _ => noThrow_ok s3 hs3)
        · exact noThrow_ite _ _ _ _
            (fun _ => hostTry_noThrow s3 _ hs3 rfl rfl rfl)
            (fun _ => noThrow_ok s3 hs3)
        · exact noThrow_ok s3 hs3

theorem stepVector_noThrow (o : RoundingOptions) (st : PSt)
    (h : st.1.mutationThrows = false) : NoThrowStep (stepVector o st) st := by
  unfold stepVector
  cases hrv : o.roundVectors
  · simp only [hrv]
    exact noThrow_ok st h
  · simp only [hrv]
    cases st.1.vectorNetwork with
    | none => exact noThrow_ok st h
    | some vn =>
      dsimp only []
      split_ifs <;>
        first
          | exact noThrow_ok st h
          | exact ⟨_, rfl, h, rfl, rfl⟩
          | simp_all

theorem stepEffects_noThrow (o : RoundingOptions) (st : PSt)
    (h : st.1.mutationThrows = false) : NoThrowStep (stepEffects o st) st := by
  unfold stepEffects
  refine noThrow_ite _ _ _ _ ?_ (fun _ => noThrow_ok st h)
  intro he
  cases st.1.effects with
  | none => exact noThrow_ok st h
  | some effs =>
    dsimp only []
    exact noThrow_ite _ _ _ _
      (fun _ => hostTry_noThrow st _ h rfl rfl rfl)
      (fun _ => noThrow_ok st h)

theorem stepCornerRadius_noThrow (rf : ℚ) (o : RoundingOptions) (st : PSt)
    (h : st.1.mutationThrows = false) : NoThrowStep (stepCornerRadius rf o st) st := by
  unfold stepCornerRadius
  cases st.1.cornerRadius with
  | none => exact noThrow_ok st h
  | some r =>
    dsimp only []
    refine noThrow_ite _ _ _ _ ?_ (fun _ => noThrow_ok st h)
    intro hne
    refine noThrow_ite _ _ _ _
      (fun _ => hostTry_noThrow st _ h rfl rfl rfl) ?_
    intro hs
    exact noThrow_ite _ _ _ _
      (fun _ => hostTry_noThrow st _ h rfl rfl rfl)
      (fun _ => noThrow_ok st h)

theorem stepCornerRadii_noThrow (rf : ℚ) (o : RoundingOptions) (st : PSt)
    (h : st.1.mutationThrows = false) : NoThrowStep (stepCornerRadii rf o st) st := by
  unfold stepCornerRadii
  cases st.1.topLeftRadius with
  | some tl =>
    dsimp only []
    refine noThrow_ite _ _ _ _ ?_ (fun _ => noThrow_ok st h)
    intro hne
    exact noThrow_ite _ _ _ _
      (fun _ => hostTry_noThrow st _ h rfl rfl rfl)
      (fun _ => noThrow_ok st h)
  | none =>
    dsimp only []
    refine noThrow_ite _ _ _ _ ?_ (fun _ => noThrow_ok st h)
    intro hany
    refine noThrow_ite _ _ _ _ ?_ (fun _ => noThrow_ok st h)
    intro hs
    exact noThrow_ite _ _ _ _
      (fun _ => hostTry_noThrow st _ h rfl rfl rfl)
      (fun _ => noThrow_ok st h)

theorem coreSteps_noThrow (rf : ℚ) (o : RoundingOptions) (st : PSt)
    (h : st.1.mutationThrows = false) : NoThrowStep (coreSteps rf o st) st := by
  unfold coreSteps
  refine noThrow_bind (stepX_noThrow rf o st h) ?_
  intro s2 h2
  refine noThrow_bind (stepY_noThrow rf o s2 h2) ?_
  intro s3 h3
  refine noThrow_bind (stepSize_noThrow o s3 h3) ?_
  intro s4 h4
  refine noThrow_bind (stepSpacing_noThrow o s4 h4) ?_
  intro s5 h5
  refine noThrow_bind (stepRotation_noThrow rf o s5 h5) ?_
  intro s6 h6
  refine noThrow_bind (stepText_noThrow o s6 h6) ?_
  intro s7 h7
  refine noThrow_bind (stepVector_noThrow o s7 h7) ?_
  intro s8 h8
  refine noThrow_bind (stepEffects_noThrow o s8 h8) ?_
  intro s9 h9
  refine noThrow_bind (stepCornerRadius_noThrow rf o s9 h9) ?_
  intro s10 h10
  exact stepCornerRadii_noThrow rf o s10 h10

/-- Processing a node whose host never raises leaves `errorCount` and
`instancesSkipped` exactly as they were. -/
theorem processNodeProperties_noThrow (rf : ℚ) (o : RoundingOptions) (d : NodeData)
    (stats : RoundingStats) (h : d.mutationThrows = false) :
    (processNodeProperties rf o d stats).2.errorCount = stats.errorCount ∧
    (processNodeProperties rf o d stats).2.instancesSkipped = stats.instancesSkipped := by
  unfold processNodeProperties
  split_ifs with hig
  · exact ⟨rfl, rfl⟩
  · obtain ⟨s', hs', _, herr, hskip⟩ :=
      coreSteps_noThrow rf o
        (d, { stats with nodesProcessed := stats.nodesProcessed + 1 }) h
    unfold processCore
    rw [hs']
    exact ⟨herr, hskip⟩

/-- C6 (amended): for a non-detached component instance (whose type is not
in `ignoreTypes`, whose id is not excluded, and whose host does not raise):
the preview walk only increments `nodeCount` and `instancesSkipped` — it
creates no entry, previews none of the instance's own properties, and never
recurses into the children; the selection-mode apply walk processes exactly
the instance itself — its own properties are processed by
`processNodeProperties` and no descendant is visited — and the apply side
never increments `instancesSkipped` (the counter stays what it was; only
the preview tracks it).  In full-document mode, descendants of the instance
are still reached, because `findAll()` lists them and the flat loop
processes them directly (see the counterexample). -/
theorem c6_instance_boundary (rf : ℚ) (o : RoundingOptions) (d : NodeData)
    (kids : List SceneNode) (st : PrevSt) (stats : RoundingStats) (excl : List ℕ)
    (htype : d.type = NodeType.INSTANCE)
    (hdetach : o.detachInstances = false)
    (hig : typeIgnored o d.type = false)
    (hexcl : d.id ∉ excl)
    (hflag : d.mutationThrows = false) :
    previewNode rf o (SceneNode.node d kids) st
      = { st with changes := { st.changes with
            nodeCount := st.changes.nodeCount + 1,
            instancesSkipped := st.changes.instancesSkipped + 1 } } ∧
    selectAndRoundType rf o stats excl [SceneNode.node d kids]
      = { processed := [d.id], excluded := excl,
          stats := (processNodeProperties rf o d stats).2,
          out := [(d.id, (processNodeProperties rf o d stats).1)] } ∧
    (processNodeProperties rf o d stats).2.instancesSkipped = stats.instancesSkipped := by
  refine ⟨?_, ?_, (processNodeProperties_noThrow rf o d stats hflag).2⟩
  · rw [previewNode]
    rw [if_neg (by simp [hig]), if_pos ⟨htype, hdetach⟩]
  · unfold selectAndRoundType
    rw [traverseNodes, traverseNodes, traverseChildren]
    rw [if_neg (by simp [hexcl])]
    cases hk : d.hasChildren
    · simp only [Bool.false_eq_true, if_false]
      unfold visitUpdate
      simp
    · simp only [if_true]
      rw [if_pos htype]
      unfold visitUpdate
      simp

/-- Witness for C6 (amended) at the concrete instance with one child. -/
theorem c6_instance_boundary_witness :
    previewNode 1 DEFAULT_OPTIONS (SceneNode.node c6InstData [SceneNode.node c6ChildData []]) emptyPrev
      = { emptyPrev with changes := { emptyPrev.changes with
            nodeCount := emptyPrev.changes.nodeCount + 1,
            instancesSkipped := emptyPrev.changes.instancesSkipped + 1 } } ∧
    selectAndRoundType 1 DEFAULT_OPTIONS initStats [] [SceneNode.node c6InstData [SceneNode.node c6ChildData []]]
      = { processed := [c6InstData.id], excluded := [],
          stats := (processNodeProperties 1 DEFAULT_OPTIONS c6InstData initStats).2,
          out := [(c6InstData.id, (processNodeProperties 1 DEFAULT_OPTIONS c6InstData initStats).1)] } ∧
    (processNodeProperties 1 DEFAULT_OPTIONS c6InstData initStats).2.instancesSkipped
      = initStats.instancesSkipped :=
  c6_instance_boundary 1 DEFAULT_OPTIONS c6InstData [SceneNode.node c6ChildData []]
    emptyPrev initStats [] rfl rfl (by decide) (by simp) rfl

/-- A node whose first host write is its `x` setter and whose host raises:
the catch keeps the node untouched and increments `errorCount` by exactly
one, whatever the incoming stats. -/
theorem processNodeProperties_throwsAtX (rf : ℚ) (o : RoundingOptions) (d : NodeData)
    (s : RoundingStats) (xv : ℚ)
    (hflag : d.mutationThrows = true)
    (hx : d.x = some xv)
    (hround : applyRoundingStrategy xv rf o.roundingStrategy ≠ xv)
    (hig : typeIgnored o d.type = false) :
    (processNodeProperties rf o d s).2.errorCount = s.errorCount + 1 := by
  unfold processNodeProperties
  rw [if_neg (by simp [hig])]
  have hX : stepX rf o (d, { s with nodesProcessed := s.nodesProcessed + 1 })
      = Except.error (d, { s with nodesProcessed := s.nodesProcessed + 1 }) := by
    unfold stepX tryRoundField hostTry
    dsimp only []
    rw [hx]
    dsimp only []
    rw [if_pos hround, if_pos hflag]
  unfold processCore coreSteps
  rw [hX, except_bind_error]

/-- One node is already present in the visited list after its own
traversal, provided the exclusion set does not block it. -/
theorem traverseChildren_self (rf : ℚ) (o : RoundingOptions) (n : SceneNode) (st : WalkSt)
    (hne : st.excluded.contains n.data.id = false) :
    n.data.id ∈ (traverseChildren rf o n st).processed := by
  cases n with
  | node d kids =>
    simp only [SceneNode.data] at hne ⊢
    rw [traverseChildren]
    by_cases hb : (st.processed.contains d.id || st.excluded.contains d.id) = true
    · rw [if_pos hb]
      rcases Bool.or_eq_true_iff.mp hb with hc | hc
      · simpa using hc
      · rw [hne] at hc
        cases hc
    · rw [if_neg hb]
      have hmem : d.id ∈ (visitUpdate rf o d st).processed := by
        unfold visitUpdate
        simp
      cases d.hasChildren
      · simpa using hmem
      · by_cases hinst : d.type = NodeType.INSTANCE
        · simp only [if_pos hinst, if_true]
          simpa using hmem
        · simp only [if_neg hinst, if_true]
          exact traverseNodes_preserve rf o (fun s => d.id ∈ s.processed)
            (fun d2 s _ hP => by unfold visitUpdate; simp [hP]) kids _ hmem

/-- Every node of the list ends up in the visited set after the flat loop,
when no exclusion applies. -/
theorem traverseNodes_all (rf : ℚ) (o : RoundingOptions) :
    ∀ (ns : List SceneNode) (st : WalkSt), st.excluded = [] →
      ∀ n ∈ ns, n.data.id ∈ (traverseNodes rf o ns st).processed := by
  intro ns
  induction ns with
  | nil =>
    intro st hE n hn
    cases hn
  | cons m ms ih =>
    intro st hE n hn
    rw [traverseNodes]
    rcases List.mem_cons.mp hn with rfl | hn'
    · have h1 : n.data.id ∈ (traverseChildren rf o n st).processed :=
        traverseChildren_self rf o n st (by rw [hE]; rfl)
      exact traverseNodes_preserve rf o (fun s => n.data.id ∈ s.processed)
        (fun d s _ hP => by unfold visitUpdate; simp [hP]) ms _ h1
    · have hE1 : (traverseChildren rf o m st).excluded = [] :=
        traverseChildren_preserve rf o (fun s => s.excluded = [])
          (fun d s _ hP => hP) m st hE
      exact ih _ hE1 n hn'

theorem mem_flattenList_iff (ns : List SceneNode) (x : SceneNode) :
    x ∈ flattenList ns ↔ ∃ m ∈ ns, x ∈ flattenOne m := by
  induction ns with
  | nil => simp [flattenList]
  | cons m ms ih =>
    rw [flattenList, List.mem_append, ih]
    simp [List.mem_cons, or_and_right, exists_or]

/-- Flattening is closed under subtrees: everything below a member of a
flattened list is itself in the flattened list. -/
theorem flatten_closed :
    ∀ k : ℕ,
      (∀ n : SceneNode, sizeOf n ≤ k →
        ∀ m ∈ flattenOne n, ∀ x ∈ flattenOne m, x ∈ flattenOne n) ∧
      (∀ ns : List SceneNode, sizeOf ns ≤ k →
        ∀ m ∈ flattenList ns, ∀ x ∈ flattenOne m, x ∈ flattenList ns) := by
  intro k
  induction k with
  | zero =>
    constructor
    · intro n hn
      exfalso
      cases n with
      | node d kids => simp at hn
    · intro ns hn
      exfalso
      cases ns with
      | nil => simp at hn
      | cons m ms => simp at hn
  | succ k ih =>
    constructor
    · intro n hn m hm x hx
      cases n with
      | node d kids =>
        rw [flattenOne] at hm ⊢
        rcases List.mem_cons.mp hm with rfl | hm'
        · rw [flattenOne] at hx
          exact hx
        · have hkids : sizeOf kids ≤ k := by simp at hn; omega
          exact List.mem_cons.mpr (Or.inr (ih.2 kids hkids m hm' x hx))
    · intro ns hn m hm x hx
      cases ns with
      | nil =>
        rw [flattenList] at hm
        cases hm
      | cons c cs =>
        have hc : sizeOf c ≤ k := by simp at hn; omega
        have hcs : sizeOf cs ≤ k := by simp at hn; omega
        rw [flattenList] at hm ⊢
        rcases List.mem_append.mp hm with h1 | h2
        · exact List.mem_append.mpr (Or.inl (ih.1 c hc m h1 x hx))
        · exact List.mem_append.mpr (Or.inr (ih.2 cs hcs m h2 x hx))

theorem flattenList_flatten_sub (ns : List SceneNode) :
    ∀ x ∈ flattenList (flattenList ns), x ∈ flattenList ns := by
  intro x hx
  rcases (mem_flattenList_iff (flattenList ns) x).mp hx with ⟨m, hm, hxm⟩
  exact (flatten_closed (sizeOf ns)).2 ns le_rfl m hm x hxm

/-- C9: on a page with exactly one failing node — its host raises on
mutation, its `x` needs rounding, its type is not ignored, and every other
node's host behaves — the document-mode apply walk increments `errorCount`
by exactly 1 for that node, and the traversal still completes with every
node of the page processed (every id ends up in the visited set). -/
theorem c9_single_failure (rf : ℚ) (o : RoundingOptions) (stats : RoundingStats)
    (page : List SceneNode) (F : NodeData) (xv : ℚ)
    (hFmem : F ∈ (flattenList page).map SceneNode.data)
    (hFflag : F.mutationThrows = true)
    (hFx : F.x = some xv)
    (hFround : applyRoundingStrategy xv rf o.roundingStrategy ≠ xv)
    (hFig : typeIgnored o F.type = false)
    (hunique : ∀ d ∈ (flattenList page).map SceneNode.data, d.id = F.id → d = F)
    (hothers : ∀ d ∈ (flattenList page).map SceneNode.data, d ≠ F → d.mutationThrows = false) :
    (roundPixels rf o stats [] page).stats.errorCount = stats.errorCount + 1 ∧
    ∀ n ∈ flattenList page, n.data.id ∈ (roundPixels rf o stats [] page).processed := by
  have hall : ∀ n ∈ flattenList page, n.data.id ∈ (roundPixels rf o stats [] page).processed := by
    intro n hn
    unfold roundPixels
    exact traverseNodes_all rf o (flattenList page) _ rfl n hn
  refine ⟨?_, hall⟩
  have hstep : ∀ d s, d ∈ (flattenList page).map SceneNode.data →
      (s.processed.contains d.id || s.excluded.contains d.id) = false →
      s.stats.errorCount = stats.errorCount + (if F.id ∈ s.processed then 1 else 0) →
      (visitUpdate rf o d s).stats.errorCount
        = stats.errorCount + (if F.id ∈ (visitUpdate rf o d s).processed then 1 else 0) := by
    intro d s hd hb hP
    have hnotin : d.id ∉ s.processed := by
      rcases Bool.or_eq_false_iff.mp hb with ⟨h1, _⟩
      simpa using h1
    by_cases hid : d.id = F.id
    · rcases hunique d hd hid with rfl
      have herr := processNodeProperties_throwsAtX rf o d s.stats xv hFflag hFx hFround hFig
      unfold visitUpdate
      rw [herr, hP, if_neg (by rw [← hid]; exact hnotin), if_pos (by simp [hid])]
    · have hdF : d ≠ F := fun hcontra => hid (by rw [hcontra])
      have herr := (processNodeProperties_noThrow rf o d s.stats (hothers d hd hdF)).1
      have hiff : (F.id ∈ s.processed ++ [d.id]) ↔ F.id ∈ s.processed := by
        simp only [List.mem_append, List.mem_singleton]
        constructor
        · rintro (h | h)
          · exact h
          · exact absurd h.symm hid
        · exact Or.inl
      unfold visitUpdate
      rw [herr, hP, if_congr hiff rfl rfl]
  have hinv := (traverse_preserve rf o ((flattenList page).map SceneNode.data)
      (fun s => s.stats.errorCount = stats.errorCount + (if F.id ∈ s.processed then 1 else 0))
      hstep (sizeOf (flattenList page))).2 (flattenList page) le_rfl
      (by
        intro e he
        rcases List.mem_map.mp he with ⟨x, hx, rfl⟩
        exact List.mem_map.mpr ⟨x, flattenList_flatten_sub page x hx, rfl⟩)
      { processed := [], excluded := [], stats := stats, out := [] } (by simp)
  have hFid : F.id ∈ (roundPixels rf o stats [] page).processed := by
    rcases List.mem_map.mp hFmem with ⟨n, hn, hdata⟩
    have := hall n hn
    rw [hdata] at this
    exact this
  unfold roundPixels at hFid ⊢
  rw [hinv, if_pos hFid]

/-- Witness for C9 at the concrete two-node page. -/
theorem c9_single_failure_witness :
    (roundPixels 1 DEFAULT_OPTIONS initStats [] c9Scene).stats.errorCount = initStats.errorCount + 1 ∧
    ∀ n ∈ flattenList c9Scene, n.data.id ∈ (roundPixels 1 DEFAULT_OPTIONS initStats [] c9Scene).processed :=
  c9_single_failure 1 DEFAULT_OPTIONS initStats c9Scene c9FailData (3/2)
    (by simp [c9Scene, flattenList, flattenOne, SceneNode.data])
    rfl
    rfl
    (by norm_num [applyRoundingStrategy, roundTo, jround, abs_of_nonneg, DEFAULT_OPTIONS])
    (by decide)
    (by
      intro d hd hid
      simp only [c9Scene, flattenList, flattenOne, List.map_append, List.map_cons,
        List.map_nil, List.append_nil, List.mem_append, List.mem_cons,
        List.not_mem_nil, or_false, SceneNode.data] at hd
      rcases hd with rfl | rfl
      · rfl
      · exfalso
        norm_num [c9FailData, c9OkData, blankData] at hid)
    (by
      intro d hd hne
      simp only [c9Scene, flattenList, flattenOne, List.map_append, List.map_cons,
        List.map_nil, List.append_nil, List.mem_append, List.mem_cons,
        List.not_mem_nil, or_false, SceneNode.data] at hd
      rcases hd with rfl | rfl
      · exact absurd rfl hne
      · rfl)

end RoundAllTw
